import Mathlib

/-
Shallow embedding of the darwinia ring balance module
(src/srml/token/ring/src/lib.rs) and proofs about its specification.

Balances are `u128` in the runtime; we model them as `Nat` together with the
explicit bound `Bmax = 2^128 - 1` wherever the source uses checked or
saturating arithmetic.  Moments (`u64`) and account ids are modelled as `Nat`.
-/

namespace Darwinia

/-- Value of `u128::MAX`: the largest representable balance. -/
def Bmax : Nat := 2 ^ 128 - 1

/-- Model of `checked_add` on `u128`. -/
def checkedAdd (a b : Nat) : Option Nat :=
  if a + b ≤ Bmax then some (a + b) else none

/-- Model of `checked_sub` on `u128`. -/
def checkedSub (a b : Nat) : Option Nat :=
  if b ≤ a then some (a - b) else none

/-- Model of `checked_mul` on `u128`. -/
def checkedMul (a b : Nat) : Option Nat :=
  if a * b ≤ Bmax then some (a * b) else none

/-- Model of `saturating_add` on `u128`. -/
def satAdd (a b : Nat) : Nat := min (a + b) Bmax

/-- Model of `WithdrawReason` from `srml_support::traits`. -/
inductive WithdrawReason
  | transactionPayment
  | transfer
  | reserve
  | fee
deriving DecidableEq, Repr

/-- Model of `WithdrawReasons`: a bitmask of `WithdrawReason`s. -/
structure WithdrawReasons where
  transactionPayment : Bool
  transfer : Bool
  reserve : Bool
  fee : Bool
deriving DecidableEq, Repr

/-- Bitmask membership test (`WithdrawReasons::contains`). -/
def WithdrawReasons.contains (rs : WithdrawReasons) : WithdrawReason → Bool
  | .transactionPayment => rs.transactionPayment
  | .transfer => rs.transfer
  | .reserve => rs.reserve
  | .fee => rs.fee

/-- Bitmask union (the `|` operator on `WithdrawReasons`). -/
def WithdrawReasons.union (a b : WithdrawReasons) : WithdrawReasons :=
  ⟨a.transactionPayment || b.transactionPayment, a.transfer || b.transfer,
   a.reserve || b.reserve, a.fee || b.fee⟩

/-- Model of `VestingSchedule` (lib.rs lines 102-110). -/
structure VestingSchedule where
  offset : Nat
  per_block : Nat
deriving DecidableEq, Repr

/-- Model of `VestingSchedule::locked_at` (lib.rs lines 113-122): amount locked at
moment `n`. -/
def VestingSchedule.locked_at (v : VestingSchedule) (n : Nat) : Nat :=
  match checkedMul n v.per_block with
  | some x => max v.offset x - x
  | none => 0

/-- Model of `BalanceLock` (lib.rs lines 125-132). `LockIdentifier` is modelled
as a `Nat`. -/
structure BalanceLock where
  id : Nat
  amount : Nat
  untl : Nat
  reasons : WithdrawReasons
deriving DecidableEq, Repr

/-- Events deposited by the module (lib.rs lines 88-100). -/
inductive Event
  | newAccount (who : Nat) (balance : Nat)
  | reapedAccount (who : Nat)
  | transfer (transactor dest value fees : Nat)
deriving DecidableEq, Repr

/-- Model of `UpdateBalanceOutcome` from `srml_support::traits`. -/
inductive UpdateBalanceOutcome
  | accountKilled
  | updated
deriving DecidableEq, Repr

/-- Model of `ExistenceRequirement` from `srml_support::traits`. -/
inductive ExistenceRequirement
  | keepAlive
  | allowDeath
deriving DecidableEq, Repr

/-- The module storage (decl_storage, lib.rs lines 134-188) together with
the timestamp oracle reading and the deposited events.  `free` is an
explicit partial map because the source queries `FreeBalance::exists`. -/
structure State where
  total_issuance : Nat
  existential_deposit : Nat
  transfer_fee : Nat
  creation_fee : Nat
  free : Nat → Option Nat
  reserved : Nat → Nat
  locks : Nat → List BalanceLock
  vesting : Nat → Option VestingSchedule
  now : Nat
  events : List Event

/-- Getter `free_balance`: a missing storage entry reads as zero. -/
def State.free_balance (s : State) (who : Nat) : Nat := (s.free who).getD 0

/-- Model of `total_balance` (lib.rs lines 574-576). -/
def State.total_balance (s : State) (who : Nat) : Nat :=
  s.free_balance who + s.reserved who

/-- Hook `DustRemoval = ()`: dropping the `NegativeImbalance` of the dust
saturating-subtracts it from `TotalIssuance` (lib.rs lines 509-516). -/
def dustRemoval (s : State) (dust : Nat) : State :=
  { s with total_issuance := s.total_issuance - dust }

/-- Model of `reap_account` (lib.rs lines 334-337): removes the nonce (external
system storage, not modelled) and deposits a `ReapedAccount` event. -/
def reap_account (s : State) (who : Nat) : State :=
  { s with events := s.events ++ [Event.reapedAccount who] }

/-- Model of `new_account` (lib.rs lines 326-329): fires the `OnNewAccount` hook and
deposits a `NewAccount` event; the hook is external, the event records
that it was invoked. -/
def new_account (s : State) (who balance : Nat) : State :=
  { s with events := s.events ++ [Event.newAccount who balance] }

/-- Model of `on_free_too_low` (lib.rs lines 343-357): takes the free balance as
dust, clears the locks, routes the dust through `DustRemoval`, fires
`OnFreeBalanceZero` (external) and reaps the account when the reserved
side is already dead. -/
def on_free_too_low (s : State) (who : Nat) : State :=
  let dust := s.free_balance who
  let s1 : State := { s with
    free := Function.update s.free who none,
    locks := Function.update s.locks who [] }
  let s2 := if dust ≠ 0 then dustRemoval s1 dust else s1
  if s2.reserved who = 0 then reap_account s2 who else s2

/-- Model of `on_reserved_too_low` (lib.rs lines 363-374). -/
def on_reserved_too_low (s : State) (who : Nat) : State :=
  let dust := s.reserved who
  let s1 : State := { s with reserved := Function.update s.reserved who 0 }
  let s2 := if dust ≠ 0 then dustRemoval s1 dust else s1
  if s2.free_balance who = 0 then reap_account s2 who else s2

/-- Model of `set_free_balance` (lib.rs lines 309-321). -/
def set_free_balance (s : State) (who balance : Nat) :
    State × UpdateBalanceOutcome :=
  if balance < s.existential_deposit then
    (on_free_too_low { s with free := Function.update s.free who (some balance) } who,
     .accountKilled)
  else
    ({ s with free := Function.update s.free who (some balance) }, .updated)

/-- Model of `set_reserved_balance` (lib.rs lines 290-299). -/
def set_reserved_balance (s : State) (who balance : Nat) :
    State × UpdateBalanceOutcome :=
  if balance < s.existential_deposit then
    (on_reserved_too_low { s with reserved := Function.update s.reserved who balance } who,
     .accountKilled)
  else
    ({ s with reserved := Function.update s.reserved who balance }, .updated)

/-- Model of `vesting_balance` (lib.rs lines 271-278). -/
def vesting_balance (s : State) (who : Nat) : Nat :=
  match s.vesting who with
  | some v => min (s.free_balance who) (v.locked_at s.now)
  | none => 0

/-- Model of `ensure_can_withdraw` (lib.rs lines 598-626).  Pure: reads the locks,
never writes them. -/
def ensure_can_withdraw (s : State) (who : Nat) (_amount : Nat)
    (reason : WithdrawReason) (new_balance : Nat) : Except String Unit :=
  if (reason = .reserve ∨ reason = .transfer) ∧ vesting_balance s who > new_balance then
    .error "vesting balance too high to send value"
  else
    let locks := s.locks who
    if locks = [] then .ok ()
    else if locks.all fun l =>
        (l.untl ≤ s.now : Bool) || (l.amount ≤ new_balance : Bool) || !(l.reasons.contains reason) then
      .ok ()
    else
      .error "account liquidity restrictions prevent withdrawal"

/-- Model of `transfer` (lib.rs lines 628-665).  `TransferPayment = ()`: dropping
the fee's `NegativeImbalance` saturating-subtracts it from
`TotalIssuance`. -/
def transfer (s : State) (transactor dest value : Nat) :
    State × Except String Unit :=
  let from_balance := s.free_balance transactor
  let to_balance := s.free_balance dest
  let would_create := to_balance = 0
  let fees := if would_create then s.creation_fee else s.transfer_fee
  match checkedAdd value fees with
  | none => (s, .error "got overflow after adding a fee to value")
  | some liability =>
    match checkedSub from_balance liability with
    | none => (s, .error "balance too low to send value")
    | some new_from_balance =>
      if would_create ∧ value < s.existential_deposit then
        (s, .error "value too low to create account")
      else
        match ensure_can_withdraw s transactor value .transfer new_from_balance with
        | .error e => (s, .error e)
        | .ok () =>
          match checkedAdd to_balance value with
          | none => (s, .error "destination balance too high to receive value")
          | some new_to_balance =>
            if transactor ≠ dest then
              let s1 := (set_free_balance s transactor new_from_balance).1
              let s2 := if (s1.free dest).isNone then new_account s1 dest new_to_balance else s1
              let s3 := (set_free_balance s2 dest new_to_balance).1
              let s4 : State := { s3 with total_issuance := s3.total_issuance - fees }
              ({ s4 with events := s4.events ++ [Event.transfer transactor dest value fees] },
               .ok ())
            else
              (s, .ok ())

/-- Model of `withdraw` (lib.rs lines 667-683).  On success returns the magnitude of
the produced `NegativeImbalance`. -/
def withdraw (s : State) (who value : Nat) (reason : WithdrawReason)
    (liveness : ExistenceRequirement) : State × Except String Nat :=
  match checkedSub (s.free_balance who) value with
  | some new_balance =>
    if liveness = .keepAlive ∧ new_balance < s.existential_deposit then
      (s, .error "payment would kill account")
    else
      match ensure_can_withdraw s who value reason new_balance with
      | .error e => (s, .error e)
      | .ok () => ((set_free_balance s who new_balance).1, .ok value)
  | none => (s, .error "too few free funds in account")

/-- Model of `slash` (lib.rs lines 685-705).  Returns the new state, the magnitude
of the returned `NegativeImbalance` and the unsatisfied remainder. -/
def slash (s : State) (who value : Nat) : State × Nat × Nat :=
  let free_balance := s.free_balance who
  let free_slash := min free_balance value
  let s1 := (set_free_balance s who (free_balance - free_slash)).1
  let remaining_slash := value - free_slash
  if remaining_slash ≠ 0 then
    let reserved_balance := s1.reserved who
    let reserved_slash := min reserved_balance remaining_slash
    let s2 := (set_reserved_balance s1 who (reserved_balance - reserved_slash)).1
    (s2, free_slash + reserved_slash, remaining_slash - reserved_slash)
  else
    (s1, value, 0)

/-- Model of `reserve` (lib.rs lines 792-802). -/
def reserve (s : State) (who value : Nat) : State × Except String Unit :=
  let b := s.free_balance who
  if b < value then (s, .error "not enough free funds")
  else
    let new_balance := b - value
    match ensure_can_withdraw s who value .reserve new_balance with
    | .error e => (s, .error e)
    | .ok () =>
      let s1 := (set_reserved_balance s who (s.reserved who + value)).1
      ((set_free_balance s1 who new_balance).1, .ok ())

/-- Model of `unreserve` (lib.rs lines 804-810).  Returns the amount it could not
move. -/
def unreserve (s : State) (who value : Nat) : State × Nat :=
  let b := s.reserved who
  let actual := min b value
  let s1 := (set_free_balance s who (s.free_balance who + actual)).1
  let s2 := (set_reserved_balance s1 who (b - actual)).1
  (s2, value - actual)

/-- Model of `repatriate_reserved` (lib.rs lines 823-836). -/
def repatriate_reserved (s : State) (slashed beneficiary value : Nat) :
    State × Except String Nat :=
  if s.total_balance beneficiary = 0 then
    (s, .error "beneficiary account must pre-exist")
  else
    let b := s.reserved slashed
    let sl := min b value
    let s1 := (set_free_balance s beneficiary (s.free_balance beneficiary + sl)).1
    let s2 := (set_reserved_balance s1 slashed (b - sl)).1
    (s2, .ok (value - sl))

/-- Model of `set_balance` dispatchable (lib.rs lines 240-262).  Dropping a
`PositiveImbalance` saturating-adds its magnitude to `TotalIssuance`,
dropping a `NegativeImbalance` saturating-subtracts it (lib.rs lines
500-516). -/
def set_balance (s : State) (who new_free new_reserved : Nat) : State :=
  let current_free := s.free_balance who
  let s1 : State :=
    if current_free < new_free then
      { s with total_issuance := satAdd s.total_issuance (new_free - current_free) }
    else if new_free < current_free then
      { s with total_issuance := s.total_issuance - (current_free - new_free) }
    else s
  let s2 := (set_free_balance s1 who new_free).1
  let current_reserved := s2.reserved who
  let s3 : State :=
    if current_reserved < new_reserved then
      { s2 with total_issuance := satAdd s2.total_issuance (new_reserved - current_reserved) }
    else if new_reserved < current_reserved then
      { s2 with total_issuance := s2.total_issuance - (current_reserved - new_reserved) }
    else s2
  (set_reserved_balance s3 who new_reserved).1

/-- The body of `set_lock`'s `filter_map` (lib.rs lines 852-864): the
accumulator threads the `new_lock.take()` state; the leftover new lock is
pushed at the end. -/
def setLockAux (idv now : Nat) : Option BalanceLock → List BalanceLock → List BalanceLock
  | some nl, [] => [nl]
  | none, [] => []
  | acc, l :: ls =>
    if l.id = idv then
      match acc with
      | some nl => nl :: setLockAux idv now none ls
      | none => setLockAux idv now none ls
    else if now < l.untl then l :: setLockAux idv now acc ls
    else setLockAux idv now acc ls

/-- Model of `set_lock` (lib.rs lines 845-866). -/
def set_lock (s : State) (idv who amount untl : Nat) (reasons : WithdrawReasons) : State :=
  let ls := setLockAux idv s.now (some ⟨idv, amount, untl, reasons⟩) (s.locks who)
  { s with locks := Function.update s.locks who ls }

/-- The merge of an existing lock with the new one in `extend_lock`
(lib.rs lines 879-885). -/
def extendMerge (l nl : BalanceLock) : BalanceLock :=
  ⟨l.id, max l.amount nl.amount, max l.untl nl.untl, l.reasons.union nl.reasons⟩

/-- The body of `extend_lock`'s `filter_map` (lib.rs lines 876-894). -/
def extendLockAux (idv now : Nat) : Option BalanceLock → List BalanceLock → List BalanceLock
  | some nl, [] => [nl]
  | none, [] => []
  | acc, l :: ls =>
    if l.id = idv then
      match acc with
      | some nl => extendMerge l nl :: extendLockAux idv now none ls
      | none => extendLockAux idv now none ls
    else if now < l.untl then l :: extendLockAux idv now acc ls
    else extendLockAux idv now acc ls

/-- Model of `extend_lock` (lib.rs lines 868-896). -/
def extend_lock (s : State) (idv who amount untl : Nat) (reasons : WithdrawReasons) : State :=
  let ls := extendLockAux idv s.now (some ⟨idv, amount, untl, reasons⟩) (s.locks who)
  { s with locks := Function.update s.locks who ls }

/-- Model of `remove_lock` (lib.rs lines 898-910). -/
def remove_lock (s : State) (idv who : Nat) : State :=
  let ls := (s.locks who).filter fun l => (s.now < l.untl : Bool) && (l.id ≠ idv : Bool)
  { s with locks := Function.update s.locks who ls }

/-- One public ledger operation for the conservation property (spec section
8, "Conservation": sequences of transfer/slash/reserve/unreserve/setBalance). -/
inductive Op
  | transferOp (transactor dest value : Nat)
  | slashOp (who value : Nat)
  | reserveOp (who value : Nat)
  | unreserveOp (who value : Nat)
  | setBalanceOp (who new_free new_reserved : Nat)

/-- Accounts an operation can touch. -/
def Op.touched : Op → List Nat
  | .transferOp f t _ => [f, t]
  | .slashOp w _ => [w]
  | .reserveOp w _ => [w]
  | .unreserveOp w _ => [w]
  | .setBalanceOp w _ _ => [w]

/-- Run one operation to its externally observable boundary: the state
after the call has returned (successfully or not) and every
`ImbalanceToken` it produced has been dropped.  `slash` returns a
`NegativeImbalance` of the removed amount; dropping it
saturating-subtracts it from `TotalIssuance`. -/
def applyOp (s : State) : Op → State
  | .transferOp f t v => (transfer s f t v).1
  | .slashOp w v =>
    let r := slash s w v
    { r.1 with total_issuance := r.1.total_issuance - r.2.1 }
  | .reserveOp w v => (reserve s w v).1
  | .unreserveOp w v => (unreserve s w v).1
  | .setBalanceOp w nf nr => set_balance s w nf nr

/-- Sum of free plus reserved balances over a set of accounts. -/
def sumBal (s : State) (S : Finset Nat) : Nat :=
  S.sum fun a => s.free_balance a + s.reserved a

/-- The conservation invariant: `TotalIssuance` equals the sum of all
balances, and every account outside `S` is empty. -/
def Conserves (s : State) (S : Finset Nat) : Prop :=
  s.total_issuance = sumBal s S ∧
  ∀ a, a ∉ S → s.free_balance a = 0 ∧ s.reserved a = 0

/-- The saturating `TotalIssuance` adjustments performed by the operation
do not hit the `u128` clamp.  Only `set_balance` can increase issuance
among the five operations; the two conditions mirror its two
`PositiveImbalance` drops (the second sees the issuance as already
adjusted by the free-balance part, including a possible dust burn). -/
def satOk (s : State) : Op → Prop
  | .setBalanceOp w nf nr =>
    (s.free_balance w < nf → s.total_issuance + (nf - s.free_balance w) ≤ Bmax) ∧
    (s.reserved w < nr →
      s.total_issuance + (nf - s.free_balance w) - (s.free_balance w - nf) -
        (if nf < s.existential_deposit then nf else 0) + (nr - s.reserved w) ≤ Bmax)
  | _ => True

-- ===== concrete states used by witnesses and counterexamples =====

/-- A reasons bitmask containing exactly `Transfer`. -/
def rTransfer : WithdrawReasons := ⟨false, true, false, false⟩

/-- A state with one funded account and a vesting schedule on it. -/
def wsVest : State :=
  ⟨100, 10, 1, 5, fun a => if a = 0 then some 100 else none, fun _ => 0,
   fun _ => [], fun a => if a = 0 then some ⟨50, 0⟩ else none, 0, []⟩

/-- A state whose account 0 holds 100 free and carries an expired
Transfer lock (`untl = 5` while `now = 8`). -/
def wsExpired : State :=
  ⟨100, 10, 1, 5, fun a => if a = 0 then some 100 else none, fun _ => 0,
   fun a => if a = 0 then [⟨1, 50, 5, rTransfer⟩] else [], fun _ => none, 8, []⟩

/-- A state whose account 0 holds 100 free and carries one live lock with
id 1 and one live lock with id 2, plus an expired lock with id 3. -/
def wsLocks : State :=
  ⟨100, 10, 1, 5, fun a => if a = 0 then some 100 else none, fun _ => 0,
   fun a => if a = 0 then [⟨1, 50, 20, rTransfer⟩, ⟨3, 7, 2, rTransfer⟩, ⟨2, 30, 20, rTransfer⟩] else [],
   fun _ => none, 8, []⟩

/-- A state with no funded accounts and a nonzero creation fee. -/
def wsEmpty : State :=
  ⟨0, 10, 1, 5, fun _ => none, fun _ => 0, fun _ => [], fun _ => none, 0, []⟩

/-- An account whose free side is reaped but which holds 50 reserved. -/
def wsReserved : State :=
  ⟨50, 10, 1, 5, fun _ => none, fun a => if a = 0 then 50 else 0,
   fun _ => [], fun _ => none, 0, []⟩

/-- An account whose free side is reaped holding 5 reserved, below the
existential deposit of 10. -/
def wsHalfDead : State :=
  ⟨5, 10, 1, 5, fun _ => none, fun a => if a = 0 then 5 else 0,
   fun _ => [], fun _ => none, 0, []⟩

/-- The spec's slash scenario: 50 free, 30 reserved. -/
def wsSlash : State :=
  ⟨80, 10, 1, 5, fun a => if a = 0 then some 50 else none,
   fun a => if a = 0 then 30 else 0, fun _ => [], fun _ => none, 0, []⟩

/-- 50 free with a large existential deposit of 25. -/
def wsSlashDust : State :=
  ⟨50, 25, 1, 5, fun a => if a = 0 then some 50 else none, fun _ => 0,
   fun _ => [], fun _ => none, 0, []⟩

/-- The spec's fee scenario: A holds 1000 free, B empty, creation fee 5,
transfer fee 1, existential deposit 10. -/
def wsFees : State :=
  ⟨1000, 10, 1, 5, fun a => if a = 0 then some 1000 else none, fun _ => 0,
   fun _ => [], fun _ => none, 0, []⟩

/-- A 100, B 50, transfer fee 1, existential deposit 10: transferring 90
leaves the sender at 9, below the deposit. -/
def wsDust : State :=
  ⟨150, 10, 1, 5,
   fun a => if a = 0 then some 100 else if a = 1 then some 50 else none,
   fun _ => 0, fun _ => [], fun _ => none, 0, []⟩

/-- A single account holding the entire `u128` range. -/
def wsMax : State :=
  ⟨Bmax, 10, 1, 5, fun a => if a = 0 then some Bmax else none, fun _ => 0,
   fun _ => [], fun _ => none, 0, []⟩

-- ===== helper lemmas =====

/-- The dust burn is a no-op for zero dust, so the conditional around
`DustRemoval` can be collapsed. -/
theorem dust_if (s : State) (d : Nat) :
    (if d ≠ 0 then dustRemoval s d else s) = dustRemoval s d := by
  by_cases h : d = 0
  · subst h
    simp [dustRemoval]
  · simp [h]

/-- Characterization of `set_free_balance`: the resulting storage, issuance
adjustment (dust burn), lock clearing and reap event. -/
theorem set_free_balance_spec (s : State) (who b : Nat) :
    ((set_free_balance s who b).1.free =
      Function.update s.free who (if b < s.existential_deposit then none else some b)) ∧
    ((set_free_balance s who b).1.reserved = s.reserved) ∧
    ((set_free_balance s who b).1.total_issuance =
      s.total_issuance - (if b < s.existential_deposit then b else 0)) ∧
    ((set_free_balance s who b).1.locks =
      (if b < s.existential_deposit then Function.update s.locks who [] else s.locks)) ∧
    ((set_free_balance s who b).1.existential_deposit = s.existential_deposit) ∧
    ((set_free_balance s who b).1.transfer_fee = s.transfer_fee) ∧
    ((set_free_balance s who b).1.creation_fee = s.creation_fee) ∧
    ((set_free_balance s who b).1.vesting = s.vesting) ∧
    ((set_free_balance s who b).1.now = s.now) ∧
    ((set_free_balance s who b).1.events =
      s.events ++ (if b < s.existential_deposit ∧ s.reserved who = 0
                   then [Event.reapedAccount who] else [])) := by
  by_cases hb : b < s.existential_deposit
  · simp only [set_free_balance, on_free_too_low, State.free_balance, dust_if]
    by_cases hr : s.reserved who = 0 <;>
      simp [dustRemoval, reap_account, hb, hr, Function.update_idem]
  · simp [set_free_balance, hb]

/-- Characterization of `set_reserved_balance`. -/
theorem set_reserved_balance_spec (s : State) (who b : Nat) :
    ((set_reserved_balance s who b).1.reserved =
      Function.update s.reserved who (if b < s.existential_deposit then 0 else b)) ∧
    ((set_reserved_balance s who b).1.free = s.free) ∧
    ((set_reserved_balance s who b).1.total_issuance =
      s.total_issuance - (if b < s.existential_deposit then b else 0)) ∧
    ((set_reserved_balance s who b).1.locks = s.locks) ∧
    ((set_reserved_balance s who b).1.existential_deposit = s.existential_deposit) ∧
    ((set_reserved_balance s who b).1.transfer_fee = s.transfer_fee) ∧
    ((set_reserved_balance s who b).1.creation_fee = s.creation_fee) ∧
    ((set_reserved_balance s who b).1.vesting = s.vesting) ∧
    ((set_reserved_balance s who b).1.now = s.now) ∧
    ((set_reserved_balance s who b).1.events =
      s.events ++ (if b < s.existential_deposit ∧ s.free_balance who = 0
                   then [Event.reapedAccount who] else [])) := by
  by_cases hb : b < s.existential_deposit
  · simp only [set_reserved_balance, on_reserved_too_low, dust_if]
    by_cases hr : (s.free who).getD 0 = 0 <;>
      simp [dustRemoval, reap_account, hb, hr, State.free_balance, Function.update_idem]
  · simp [set_reserved_balance, hb]

@[simp] theorem sfb_free (s : State) (who b : Nat) :
    (set_free_balance s who b).1.free =
      Function.update s.free who (if b < s.existential_deposit then none else some b) :=
  (set_free_balance_spec s who b).1

@[simp] theorem sfb_reserved (s : State) (who b : Nat) :
    (set_free_balance s who b).1.reserved = s.reserved :=
  (set_free_balance_spec s who b).2.1

@[simp] theorem sfb_ti (s : State) (who b : Nat) :
    (set_free_balance s who b).1.total_issuance =
      s.total_issuance - (if b < s.existential_deposit then b else 0) :=
  (set_free_balance_spec s who b).2.2.1

@[simp] theorem sfb_locks (s : State) (who b : Nat) :
    (set_free_balance s who b).1.locks =
      (if b < s.existential_deposit then Function.update s.locks who [] else s.locks) :=
  (set_free_balance_spec s who b).2.2.2.1

@[simp] theorem sfb_ed (s : State) (who b : Nat) :
    (set_free_balance s who b).1.existential_deposit = s.existential_deposit :=
  (set_free_balance_spec s who b).2.2.2.2.1

@[simp] theorem sfb_tfee (s : State) (who b : Nat) :
    (set_free_balance s who b).1.transfer_fee = s.transfer_fee :=
  (set_free_balance_spec s who b).2.2.2.2.2.1

@[simp] theorem sfb_cfee (s : State) (who b : Nat) :
    (set_free_balance s who b).1.creation_fee = s.creation_fee :=
  (set_free_balance_spec s who b).2.2.2.2.2.2.1

@[simp] theorem sfb_vesting (s : State) (who b : Nat) :
    (set_free_balance s who b).1.vesting = s.vesting :=
  (set_free_balance_spec s who b).2.2.2.2.2.2.2.1

@[simp] theorem sfb_now (s : State) (who b : Nat) :
    (set_free_balance s who b).1.now = s.now :=
  (set_free_balance_spec s who b).2.2.2.2.2.2.2.2.1

@[simp] theorem sfb_events (s : State) (who b : Nat) :
    (set_free_balance s who b).1.events =
      s.events ++ (if b < s.existential_deposit ∧ s.reserved who = 0
                   then [Event.reapedAccount who] else []) :=
  (set_free_balance_spec s who b).2.2.2.2.2.2.2.2.2

@[simp] theorem srb_reserved (s : State) (who b : Nat) :
    (set_reserved_balance s who b).1.reserved =
      Function.update s.reserved who (if b < s.existential_deposit then 0 else b) :=
  (set_reserved_balance_spec s who b).1

@[simp] theorem srb_free (s : State) (who b : Nat) :
    (set_reserved_balance s who b).1.free = s.free :=
  (set_reserved_balance_spec s who b).2.1

@[simp] theorem srb_ti (s : State) (who b : Nat) :
    (set_reserved_balance s who b).1.total_issuance =
      s.total_issuance - (if b < s.existential_deposit then b else 0) :=
  (set_reserved_balance_spec s who b).2.2.1

@[simp] theorem srb_locks (s : State) (who b : Nat) :
    (set_reserved_balance s who b).1.locks = s.locks :=
  (set_reserved_balance_spec s who b).2.2.2.1

@[simp] theorem srb_ed (s : State) (who b : Nat) :
    (set_reserved_balance s who b).1.existential_deposit = s.existential_deposit :=
  (set_reserved_balance_spec s who b).2.2.2.2.1

@[simp] theorem srb_tfee (s : State) (who b : Nat) :
    (set_reserved_balance s who b).1.transfer_fee = s.transfer_fee :=
  (set_reserved_balance_spec s who b).2.2.2.2.2.1

@[simp] theorem srb_cfee (s : State) (who b : Nat) :
    (set_reserved_balance s who b).1.creation_fee = s.creation_fee :=
  (set_reserved_balance_spec s who b).2.2.2.2.2.2.1

@[simp] theorem srb_vesting (s : State) (who b : Nat) :
    (set_reserved_balance s who b).1.vesting = s.vesting :=
  (set_reserved_balance_spec s who b).2.2.2.2.2.2.2.1

@[simp] theorem srb_now (s : State) (who b : Nat) :
    (set_reserved_balance s who b).1.now = s.now :=
  (set_reserved_balance_spec s who b).2.2.2.2.2.2.2.2.1

@[simp] theorem srb_events (s : State) (who b : Nat) :
    (set_reserved_balance s who b).1.events =
      s.events ++ (if b < s.existential_deposit ∧ s.free_balance who = 0
                   then [Event.reapedAccount who] else []) :=
  (set_reserved_balance_spec s who b).2.2.2.2.2.2.2.2.2

/-- Value of `free_balance` after `set_free_balance`. -/
theorem sfb_free_balance (s : State) (who b a : Nat) :
    (set_free_balance s who b).1.free_balance a =
      if a = who then (if b < s.existential_deposit then 0 else b)
      else s.free_balance a := by
  by_cases h : a = who
  · simp only [State.free_balance, sfb_free, Function.update_apply, if_pos h, h]
    by_cases hb : b < s.existential_deposit <;> simp [hb]
  · simp [State.free_balance, Function.update_apply, h]

/-- Updating the free balance of a member account shifts `sumBal` by the
difference between the new entry and the old one. -/
theorem sumBal_update_free (s s2 : State) (S : Finset Nat) (who : Nat) (v : Option Nat)
    (hfree : s2.free = Function.update s.free who v)
    (hres : s2.reserved = s.reserved) (hmem : who ∈ S) :
    sumBal s2 S + s.free_balance who = sumBal s S + v.getD 0 := by
  have hfun : (fun a => s2.free_balance a + s2.reserved a) =
      Function.update (fun a => s.free_balance a + s.reserved a) who
        (v.getD 0 + s.reserved who) := by
    funext a
    by_cases h : a = who <;>
      simp [State.free_balance, hfree, hres, Function.update_apply, h]
  have h1 : sumBal s2 S = v.getD 0 + s.reserved who +
      ∑ x ∈ S \ {who}, (s.free_balance x + s.reserved x) := by
    rw [sumBal, hfun, Finset.sum_update_of_mem hmem]
  have h2 : sumBal s S = (∑ x ∈ S \ {who}, (s.free_balance x + s.reserved x)) +
      (s.free_balance who + s.reserved who) := by
    rw [sumBal, Finset.sum_eq_sum_diff_singleton_add hmem]
  omega

/-- Updating the reserved balance of a member account shifts `sumBal` by
the difference between the new entry and the old one. -/
theorem sumBal_update_reserved (s s2 : State) (S : Finset Nat) (who : Nat) (v : Nat)
    (hres : s2.reserved = Function.update s.reserved who v)
    (hfree : s2.free = s.free) (hmem : who ∈ S) :
    sumBal s2 S + s.reserved who = sumBal s S + v := by
  have hfun : (fun a => s2.free_balance a + s2.reserved a) =
      Function.update (fun a => s.free_balance a + s.reserved a) who
        (s.free_balance who + v) := by
    funext a
    by_cases h : a = who <;>
      simp [State.free_balance, hfree, hres, Function.update_apply, h]
  have h1 : sumBal s2 S = s.free_balance who + v +
      ∑ x ∈ S \ {who}, (s.free_balance x + s.reserved x) := by
    rw [sumBal, hfun, Finset.sum_update_of_mem hmem]
  have h2 : sumBal s S = (∑ x ∈ S \ {who}, (s.free_balance x + s.reserved x)) +
      (s.free_balance who + s.reserved who) := by
    rw [sumBal, Finset.sum_eq_sum_diff_singleton_add hmem]
  omega

/-- A single account's balances are bounded by the ledger-wide sum. -/
theorem single_le_sumBal (s : State) (S : Finset Nat) (a : Nat) (ha : a ∈ S) :
    s.free_balance a + s.reserved a ≤ sumBal s S :=
  Finset.single_le_sum (f := fun a => s.free_balance a + s.reserved a)
    (fun _ _ => Nat.zero_le _) ha

/-- Two distinct accounts' balances are bounded by the ledger-wide sum. -/
theorem pair_le_sumBal (s : State) (S : Finset Nat) (a b : Nat) (hab : a ≠ b)
    (ha : a ∈ S) (hb : b ∈ S) :
    (s.free_balance a + s.reserved a) + (s.free_balance b + s.reserved b) ≤ sumBal s S := by
  have hsub : ({a, b} : Finset Nat) ⊆ S := by
    intro x hx
    rcases Finset.mem_insert.mp hx with h | h
    · exact h ▸ ha
    · exact (Finset.mem_singleton.mp h) ▸ hb
  calc (s.free_balance a + s.reserved a) + (s.free_balance b + s.reserved b)
      = ∑ x ∈ ({a, b} : Finset Nat), (s.free_balance x + s.reserved x) := by
        rw [Finset.sum_pair hab]
    _ ≤ sumBal s S := Finset.sum_le_sum_of_subset hsub

-- ===== claim C4 =====

/-- C4: `ensure_can_withdraw(who, amount, reason, resulting_balance)` fails
with the vesting flavour of `LiquidityRestricted` when the reason is
Reserve or Transfer and the vesting-locked amount at the current moment
exceeds the resulting balance; otherwise it fails exactly when some
unexpired lock (`until > now`) whose reasons contain the requested reason
has `resulting_balance < amount`.  The embedding of the check is a pure
function of the state, mirroring that the source performs no storage
write. -/
theorem ensure_can_withdraw_spec (s : State) (who amount : Nat)
    (reason : WithdrawReason) (new_balance : Nat) :
    ((reason = .reserve ∨ reason = .transfer) → new_balance < vesting_balance s who →
      ensure_can_withdraw s who amount reason new_balance =
        .error "vesting balance too high to send value") ∧
    (¬((reason = .reserve ∨ reason = .transfer) ∧ new_balance < vesting_balance s who) →
      (ensure_can_withdraw s who amount reason new_balance ≠ .ok () ↔
        ∃ l ∈ s.locks who, s.now < l.untl ∧ new_balance < l.amount ∧
          l.reasons.contains reason = true)) := by
  constructor
  · intro h1 h2
    simp [ensure_can_withdraw, h1, h2]
  · intro h
    simp only [ensure_can_withdraw, gt_iff_lt]
    rw [if_neg h]
    by_cases hl : s.locks who = []
    · simp [hl]
    · rw [if_neg hl]
      by_cases hall : ((s.locks who).all fun l =>
          (l.untl ≤ s.now : Bool) || (l.amount ≤ new_balance : Bool)
            || !(l.reasons.contains reason)) = true
      · rw [if_pos hall]
        simp only [ne_eq, not_true_eq_false, false_iff]
        rw [List.all_eq_true] at hall
        rintro ⟨l, hmem, hu, ha, hr⟩
        have hthis := hall l hmem
        simp only [Bool.or_eq_true, decide_eq_true_eq, Bool.not_eq_true', hr,
          Bool.true_eq_false, or_false] at hthis
        rcases hthis with h' | h' <;> omega
      · rw [if_neg hall]
        simp only [ne_eq, reduceCtorEq, not_false_eq_true, true_iff]
        rw [List.all_eq_true] at hall
        push_neg at hall
        obtain ⟨l, hmem, hcond⟩ := hall
        simp only [Bool.not_eq_true, Bool.or_eq_false_iff, decide_eq_false_iff_not,
          Bool.not_eq_false] at hcond
        obtain ⟨⟨h1', h2'⟩, h3'⟩ := hcond
        have h4 : l.reasons.contains reason = true := by simpa using h3'
        exact ⟨l, hmem, by omega, by omega, h4⟩

/-- Witness for C4 at a concrete vesting-restricted input. -/
theorem ensure_can_withdraw_spec_witness :
    ensure_can_withdraw wsVest 0 5 .transfer 3 =
      .error "vesting balance too high to send value" :=
  (ensure_can_withdraw_spec wsVest 0 5 .transfer 3).1 (Or.inr rfl) (by decide)

-- ===== lock helper lemmas =====

/-- Once the new lock has been consumed, `extend_lock`'s `filter_map` keeps
exactly the unexpired locks with a different id. -/
theorem extendLockAux_none (idv now : Nat) (ls : List BalanceLock) :
    extendLockAux idv now none ls =
      ls.filter fun l => (now < l.untl : Bool) && (l.id ≠ idv : Bool) := by
  induction ls with
  | nil => rfl
  | cons l ls ih =>
    by_cases h1 : l.id = idv
    · simp [extendLockAux, h1, ih, List.filter_cons]
    · by_cases h2 : now < l.untl <;>
        simp [extendLockAux, h1, h2, ih, List.filter_cons]

/-- When no lock in the list carries the target id, `extend_lock` keeps the
unexpired locks and pushes the new lock at the end. -/
theorem extendLockAux_not_found (idv now : Nat) (nl : BalanceLock)
    (ls : List BalanceLock) (h : ∀ l ∈ ls, l.id ≠ idv) :
    extendLockAux idv now (some nl) ls =
      (ls.filter fun l => (now < l.untl : Bool)) ++ [nl] := by
  induction ls with
  | nil => rfl
  | cons l ls ih =>
    have h1 : l.id ≠ idv := h l (by simp)
    have ih2 := ih fun x hx => h x (by simp [hx])
    by_cases h2 : now < l.untl <;>
      simp [extendLockAux, h1, h2, ih2, List.filter_cons]

/-- Every lock left by `set_lock`'s `filter_map` is unexpired or is the
newly written lock. -/
theorem setLockAux_mem (idv now : Nat) (acc : Option BalanceLock)
    (ls : List BalanceLock) (hacc : ∀ nl, acc = some nl → nl.id = idv) :
    ∀ l ∈ setLockAux idv now acc ls, now < l.untl ∨ l.id = idv := by
  induction ls generalizing acc with
  | nil =>
    cases acc with
    | none => simp [setLockAux]
    | some nl =>
      intro l hm
      simp only [setLockAux, List.mem_singleton] at hm
      exact Or.inr (hm ▸ hacc nl rfl)
  | cons x ls ih =>
    intro l hm
    cases acc with
    | none =>
      by_cases h1 : x.id = idv
      · simp only [setLockAux, if_pos h1] at hm
        exact ih none (by simp) l hm
      · by_cases h2 : now < x.untl
        · simp only [setLockAux, if_neg h1, if_pos h2, List.mem_cons] at hm
          rcases hm with rfl | hm
          · exact Or.inl h2
          · exact ih none (by simp) l hm
        · simp only [setLockAux, if_neg h1, if_neg h2] at hm
          exact ih none (by simp) l hm
    | some nl =>
      by_cases h1 : x.id = idv
      · simp only [setLockAux, if_pos h1, List.mem_cons] at hm
        rcases hm with rfl | hm
        · exact Or.inr (hacc l rfl)
        · exact ih none (by simp) l hm
      · by_cases h2 : now < x.untl
        · simp only [setLockAux, if_neg h1, if_pos h2, List.mem_cons] at hm
          rcases hm with rfl | hm
          · exact Or.inl h2
          · exact ih (some nl) hacc l hm
        · simp only [setLockAux, if_neg h1, if_neg h2] at hm
          exact ih (some nl) hacc l hm

/-- Every lock left by `extend_lock`'s `filter_map` is unexpired or carries
the target id (the merged lock keeps the old lock's id, which equals the
target id). -/
theorem extendLockAux_mem (idv now : Nat) (acc : Option BalanceLock)
    (ls : List BalanceLock) (hacc : ∀ nl, acc = some nl → nl.id = idv) :
    ∀ l ∈ extendLockAux idv now acc ls, now < l.untl ∨ l.id = idv := by
  induction ls generalizing acc with
  | nil =>
    cases acc with
    | none => simp [extendLockAux]
    | some nl =>
      intro l hm
      simp only [extendLockAux, List.mem_singleton] at hm
      exact Or.inr (hm ▸ hacc nl rfl)
  | cons x ls ih =>
    intro l hm
    cases acc with
    | none =>
      by_cases h1 : x.id = idv
      · simp only [extendLockAux, if_pos h1] at hm
        exact ih none (by simp) l hm
      · by_cases h2 : now < x.untl
        · simp only [extendLockAux, if_neg h1, if_pos h2, List.mem_cons] at hm
          rcases hm with rfl | hm
          · exact Or.inl h2
          · exact ih none (by simp) l hm
        · simp only [extendLockAux, if_neg h1, if_neg h2] at hm
          exact ih none (by simp) l hm
    | some nl =>
      by_cases h1 : x.id = idv
      · simp only [extendLockAux, if_pos h1, List.mem_cons] at hm
        rcases hm with rfl | hm
        · exact Or.inr h1
        · exact ih none (by simp) l hm
      · by_cases h2 : now < x.untl
        · simp only [extendLockAux, if_neg h1, if_pos h2, List.mem_cons] at hm
          rcases hm with rfl | hm
          · exact Or.inl h2
          · exact ih (some nl) hacc l hm
        · simp only [extendLockAux, if_neg h1, if_neg h2] at hm
          exact ih (some nl) hacc l hm

/-- On a list free of the target id, filtering by "unexpired and different
id" is just filtering by "unexpired". -/
theorem filter_untl_of_ne (now idv : Nat) (ls : List BalanceLock)
    (h : ∀ l ∈ ls, l.id ≠ idv) :
    (ls.filter fun l => (now < l.untl : Bool) && (l.id ≠ idv : Bool)) =
      ls.filter fun l => (now < l.untl : Bool) := by
  induction ls with
  | nil => rfl
  | cons x ls ih =>
    have h1 : x.id ≠ idv := h x (by simp)
    have ih2 := ih fun y hy => h y (by simp [hy])
    have hc : (decide (now < x.untl) && decide (x.id ≠ idv)) = decide (now < x.untl) := by
      simp [h1]
    rw [List.filter_cons, List.filter_cons, ih2, hc]

/-- Running `extend_lock`'s `filter_map` on a list whose first id hit is `l0`:
the prefix is filtered for expiry, `l0` is merged with the new lock, and
the suffix is processed with the new lock consumed. -/
theorem extendLockAux_found (idv now : Nat) (nl l0 : BalanceLock)
    (L1 L2 : List BalanceLock) (h1 : ∀ l ∈ L1, l.id ≠ idv) (h0 : l0.id = idv) :
    extendLockAux idv now (some nl) (L1 ++ l0 :: L2) =
      (L1.filter fun l => (now < l.untl : Bool)) ++
        extendMerge l0 nl :: extendLockAux idv now none L2 := by
  induction L1 with
  | nil => simp [extendLockAux, h0]
  | cons x L1 ih =>
    have hx : x.id ≠ idv := h1 x (by simp)
    have ih2 := ih fun y hy => h1 y (by simp [hy])
    by_cases h2 : now < x.untl <;>
      simp [extendLockAux, hx, h2, ih2, List.filter_cons]

-- ===== claim C7 =====

/-- C7: `extend_lock(id, who, amount, until, reasons)`: if a lock with the
same id exists (stored locks being keyed by id, at most one lock carries
it), it is replaced in place by a single lock taking the maximum of the
old and new `amount` and `until` and the union of the reasons; if no lock
with that id exists the new lock is appended unchanged.  Other unexpired
locks are preserved either way. -/
theorem extend_lock_spec (s : State) (idv who amount untl : Nat)
    (reasons : WithdrawReasons) :
    ((∀ l ∈ s.locks who, l.id ≠ idv) →
      (extend_lock s idv who amount untl reasons).locks who =
        ((s.locks who).filter fun l => (s.now < l.untl : Bool)) ++
          [⟨idv, amount, untl, reasons⟩]) ∧
    (∀ L1 l0 L2, s.locks who = L1 ++ l0 :: L2 → l0.id = idv →
      (∀ l ∈ L1, l.id ≠ idv) → (∀ l ∈ L2, l.id ≠ idv) →
      (extend_lock s idv who amount untl reasons).locks who =
        (L1.filter fun l => (s.now < l.untl : Bool)) ++
          ⟨idv, max l0.amount amount, max l0.untl untl,
            l0.reasons.union reasons⟩ ::
          (L2.filter fun l => (s.now < l.untl : Bool))) := by
  constructor
  · intro h
    simp only [extend_lock, Function.update_same]
    exact extendLockAux_not_found idv s.now _ _ h
  · intro L1 l0 L2 hdec h0 h1 h2
    simp only [extend_lock, Function.update_same, hdec]
    rw [extendLockAux_found idv s.now _ l0 L1 L2 h1 h0,
      extendLockAux_none, filter_untl_of_ne s.now idv L2 h2]
    have hm : extendMerge l0 ⟨idv, amount, untl, reasons⟩ =
        ⟨idv, max l0.amount amount, max l0.untl untl,
          l0.reasons.union reasons⟩ := by
      simp [extendMerge, h0]
    rw [hm]

/-- Witness for C7: extending the live lock with id 2 on `wsLocks` merges
amount/until by maximum and drops the expired lock with id 3. -/
theorem extend_lock_spec_witness :
    (extend_lock wsLocks 2 0 40 25 rTransfer).locks 0 =
      [⟨1, 50, 20, rTransfer⟩,
       ⟨2, 40, 25, WithdrawReasons.union rTransfer rTransfer⟩] := by
  have h := (extend_lock_spec wsLocks 2 0 40 25 rTransfer).2
    [⟨1, 50, 20, rTransfer⟩, ⟨3, 7, 2, rTransfer⟩] ⟨2, 30, 20, rTransfer⟩ []
    (by decide) (by decide) (by decide) (by decide)
  exact h.trans (by decide)

-- ===== claim C8 (amended part) =====

/-- C8 (amended): expired locks are purged as a side effect of the lock
mutations `set_lock`, `extend_lock` and `remove_lock`: afterwards every
stored lock of that account is unexpired (`until > now`) or is the newly
written (respectively merged) lock.  Read-only operations such as
`ensure_can_withdraw` ignore expired locks but perform no purge (see the
counterexample for the original claim). -/
theorem expired_locks_purged_on_mutation (s : State) (idv who amount untl : Nat)
    (reasons : WithdrawReasons) :
    (∀ l ∈ (set_lock s idv who amount untl reasons).locks who,
      s.now < l.untl ∨ l.id = idv) ∧
    (∀ l ∈ (extend_lock s idv who amount untl reasons).locks who,
      s.now < l.untl ∨ l.id = idv) ∧
    (∀ l ∈ (remove_lock s idv who).locks who, s.now < l.untl ∧ l.id ≠ idv) := by
  refine ⟨?_, ?_, ?_⟩
  · simp only [set_lock, Function.update_same]
    exact setLockAux_mem idv s.now _ _ (by intro nl h; cases h; rfl)
  · simp only [extend_lock, Function.update_same]
    exact extendLockAux_mem idv s.now _ _ (by intro nl h; cases h; rfl)
  · intro l hm
    simp only [remove_lock, Function.update_same, List.mem_filter,
      Bool.and_eq_true, decide_eq_true_eq] at hm
    exact ⟨hm.2.1, hm.2.2⟩

/-- Witness for C8's amended statement: after `set_lock` with id 1 on
`wsLocks`, the surviving lock with id 2 is unexpired. -/
theorem expired_locks_purged_on_mutation_witness :
    wsLocks.now < (⟨2, 30, 20, rTransfer⟩ : BalanceLock).untl ∨
      (⟨2, 30, 20, rTransfer⟩ : BalanceLock).id = 1 :=
  (expired_locks_purged_on_mutation wsLocks 1 0 60 30 rTransfer).1
    ⟨2, 30, 20, rTransfer⟩ (by decide)

/-- Counterexample to C8 as stated: a successful `transfer` calls
`ensure_can_withdraw`, which reads account 0's lock set, yet the expired
lock (`until = 5 ≤ now = 8`) is still stored afterwards — reads do not
purge. -/
theorem read_does_not_purge_cex :
    (transfer wsExpired 0 1 20).2 = .ok () ∧
    (transfer wsExpired 0 1 20).1.locks 0 = [⟨1, 50, 5, rTransfer⟩] ∧
    (⟨1, 50, 5, rTransfer⟩ : BalanceLock).untl ≤ (transfer wsExpired 0 1 20).1.now := by
  refine ⟨rfl, by decide, by decide⟩

-- ===== claim C9 (amended part) =====

/-- C9 (amended): a self-transfer `transfer(a, a, v)` never changes the
state — balances, locks, issuance and events are all untouched and no fee
is charged — and it succeeds exactly when the up-front validation passes
(fee addition does not overflow, the liability is covered, an empty
destination receives at least the existential deposit, the withdrawal
guard passes and the destination's checked add does not overflow).  It
does not succeed unconditionally: see the counterexample. -/
theorem self_transfer_noop (s : State) (a value : Nat) :
    (transfer s a a value).1 = s ∧
    ((transfer s a a value).2 = .ok () ↔
      (value + (if s.free_balance a = 0 then s.creation_fee else s.transfer_fee) ≤ Bmax ∧
       value + (if s.free_balance a = 0 then s.creation_fee else s.transfer_fee) ≤ s.free_balance a ∧
       (s.free_balance a = 0 → s.existential_deposit ≤ value) ∧
       ensure_can_withdraw s a value .transfer
         (s.free_balance a - (value + (if s.free_balance a = 0 then s.creation_fee else s.transfer_fee))) = .ok () ∧
       s.free_balance a + value ≤ Bmax)) := by
  constructor
  · simp only [transfer]
    repeat' split
    all_goals simp_all
  · by_cases hov : value + (if s.free_balance a = 0 then s.creation_fee else s.transfer_fee) ≤ Bmax
    case neg =>
      have hca : checkedAdd value (if s.free_balance a = 0 then s.creation_fee else s.transfer_fee) = none := by
        simp [checkedAdd, hov]
      refine iff_of_false ?_ fun h => hov h.1
      simp [transfer, hca]
    case pos =>
    have hca : checkedAdd value (if s.free_balance a = 0 then s.creation_fee else s.transfer_fee) = some (value + (if s.free_balance a = 0 then s.creation_fee else s.transfer_fee)) := by
      simp [checkedAdd, hov]
    by_cases hsub : value + (if s.free_balance a = 0 then s.creation_fee else s.transfer_fee) ≤ s.free_balance a
    case neg =>
      have hcs : checkedSub (s.free_balance a) (value + (if s.free_balance a = 0 then s.creation_fee else s.transfer_fee)) = none := by
        simp [checkedSub, hsub]
      refine iff_of_false ?_ fun h => hsub h.2.1
      simp [transfer, hca, hcs]
    case pos =>
    have hcs : checkedSub (s.free_balance a) (value + (if s.free_balance a = 0 then s.creation_fee else s.transfer_fee)) =
        some (s.free_balance a - (value + (if s.free_balance a = 0 then s.creation_fee else s.transfer_fee))) := by
      simp [checkedSub, hsub]
    by_cases hcreate : s.free_balance a = 0 ∧ value < s.existential_deposit
    case pos =>
      obtain ⟨hz, hlt⟩ := hcreate
      simp only [hz, if_pos rfl] at hov hsub
      norm_num at hov hsub
      have hca2 : checkedAdd value s.creation_fee = some (value + s.creation_fee) := by
        simp [checkedAdd, hov]
      have hx : value + s.creation_fee = 0 := by omega
      have hcs2 : checkedSub 0 (value + s.creation_fee) = some 0 := by
        simp [checkedSub, hx]
      refine iff_of_false ?_ ?_
      · simp [transfer, hz, hca2, hcs2, hlt]
      · rintro ⟨-, -, h3, -, -⟩
        exact absurd (h3 hz) (by omega)
    case neg =>
    cases hE : ensure_can_withdraw s a value .transfer
        (s.free_balance a - (value + (if s.free_balance a = 0 then s.creation_fee else s.transfer_fee))) with
    | error e =>
      refine iff_of_false ?_ ?_
      · simp [transfer, hca, hcs, hcreate, hE]
      · rintro ⟨-, -, -, h4, -⟩
        cases h4
    | ok u =>
      cases u
      by_cases hto : s.free_balance a + value ≤ Bmax
      case pos =>
        have hca2 : checkedAdd (s.free_balance a) value =
            some (s.free_balance a + value) := by
          simp [checkedAdd, hto]
        refine iff_of_true ?_ ⟨hov, hsub, fun h0 => by omega, rfl, hto⟩
        simp [transfer, hca, hcs, hcreate, hE, hca2]
      case neg =>
        have hca2 : checkedAdd (s.free_balance a) value = none := by
          simp [checkedAdd, hto]
        refine iff_of_false ?_ fun h => hto h.2.2.2.2
        simp [transfer, hca, hcs, hcreate, hE, hca2]

/-- Counterexample to C9 as stated: a self-transfer does not succeed for
every account and value — on an empty account with a nonzero creation fee
the liability check fails. -/
theorem self_transfer_fail_cex :
    (transfer wsEmpty 0 0 1).2 = .error "balance too low to send value" := rfl

-- ===== claim C10 =====

/-- C10 (amended): for an account whose free side is reaped (no stored
free entry) and whose reserved balance is at least `v`, with
`ED ≤ v` and `0 < v`, `unreserve(who, v)` raises the free balance to `v`
without firing the `OnNewAccount` hook or emitting a `NewAccount` event
(no event at all is emitted), returning 0 unmoved.  The `v ≥ ED` proviso
is forced by the counterexample: below the existential deposit the
resurrected balance is immediately zeroed again as dust. -/
theorem unreserve_resurrect_silent (s : State) (who value : Nat)
    (hfree : s.free who = none) (hv : value ≤ s.reserved who) (h0 : 0 < value)
    (hed : s.existential_deposit ≤ value) :
    (unreserve s who value).1.free_balance who = value ∧
    (unreserve s who value).1.events = s.events ∧
    (unreserve s who value).2 = 0 := by
  have hmin : min (s.reserved who) value = value := min_eq_right hv
  have hfb : s.free_balance who = 0 := by simp [State.free_balance, hfree]
  have hnot : ¬ (0 + value < s.existential_deposit) := by omega
  have hv0 : value ≠ 0 := by omega
  have hnot2 : ¬ value < s.existential_deposit := by omega
  refine ⟨?_, ?_, ?_⟩
  · simp only [unreserve, hmin, hfb]
    rw [State.free_balance]
    simp [hnot, hnot2, Function.update_same]
  · simp only [unreserve, hmin, hfb]
    rw [srb_events, sfb_events]
    have hA : ¬ (0 + value < s.existential_deposit ∧ s.reserved who = 0) := by omega
    have hfb1 : (set_free_balance s who (0 + value)).1.free_balance who = value := by
      rw [sfb_free_balance, if_pos rfl, if_neg hnot]
      omega
    have hB : ¬ (s.reserved who - value <
        (set_free_balance s who (0 + value)).1.existential_deposit ∧
        (set_free_balance s who (0 + value)).1.free_balance who = 0) := by
      rw [sfb_ed, hfb1]
      omega
    rw [if_neg hA, if_neg hB]
    simp
  · simp [unreserve, hmin]

/-- Counterexample to C10 as stated: with `ED = 10`, free side reaped and
5 reserved, `unreserve(0, 5)` does not raise the free balance to 5 — the
amount is burned as dust and the free balance stays 0. -/
theorem unreserve_below_ed_cex :
    wsHalfDead.free 0 = none ∧ wsHalfDead.reserved 0 = 5 ∧
    (unreserve wsHalfDead 0 5).1.free_balance 0 = 0 := by
  refine ⟨rfl, rfl, by decide⟩

/-- Witness for C10 at a concrete input. -/
theorem unreserve_resurrect_silent_witness :
    (unreserve wsReserved 0 20).1.free_balance 0 = 20 ∧
    (unreserve wsReserved 0 20).1.events = wsReserved.events ∧
    (unreserve wsReserved 0 20).2 = 0 :=
  unreserve_resurrect_silent wsReserved 0 20 rfl (by decide) (by decide) (by decide)

-- ===== claim C5 =====

/-- C5 (amended): `slash(who, value)` never fails.  It removes
`min(free, value)` from the free balance and then
`min(reserved, remainder)` from the reserved balance — except that a
resulting balance below the existential deposit is zeroed entirely (the
difference burned as dust) — and returns a Negative token of the
amount `free_slash + reserved_slash` together with the unsatisfied
remainder.  The reserved side is only written when a remainder exists.
In the spec scenario (free 50, reserved 30, slash 100, positive ED) it
returns (80, 20), zeroes both sides and fully reaps the account. -/
theorem slash_spec (s : State) (who value : Nat) :
    ((slash s who value).2.1 =
      min (s.free_balance who) value +
        min (s.reserved who) (value - min (s.free_balance who) value)) ∧
    ((slash s who value).2.2 =
      value - min (s.free_balance who) value -
        min (s.reserved who) (value - min (s.free_balance who) value)) ∧
    ((slash s who value).1.free_balance who =
      if s.free_balance who - min (s.free_balance who) value < s.existential_deposit
      then 0 else s.free_balance who - min (s.free_balance who) value) ∧
    ((slash s who value).1.reserved who =
      if value - min (s.free_balance who) value ≠ 0 then
        (if s.reserved who - min (s.reserved who) (value - min (s.free_balance who) value) <
            s.existential_deposit then 0
         else s.reserved who - min (s.reserved who) (value - min (s.free_balance who) value))
      else s.reserved who) ∧
    (s.free_balance who = 50 → s.reserved who = 30 → value = 100 →
      0 < s.existential_deposit →
      (slash s who value).2.1 = 80 ∧ (slash s who value).2.2 = 20 ∧
      (slash s who value).1.free_balance who = 0 ∧
      (slash s who value).1.reserved who = 0 ∧
      Event.reapedAccount who ∈ (slash s who value).1.events) := by
  have hres1 : (set_free_balance s who
      (s.free_balance who - min (s.free_balance who) value)).1.reserved who =
      s.reserved who := by rw [sfb_reserved]
  have G1 : (slash s who value).2.1 =
      min (s.free_balance who) value +
        min (s.reserved who) (value - min (s.free_balance who) value) := by
    by_cases hrem : value - min (s.free_balance who) value = 0
    · have hfs : min (s.free_balance who) value = value := by omega
      simp [slash, hrem, hfs]
    · simp [slash, hrem, hres1]
  have G2 : (slash s who value).2.2 =
      value - min (s.free_balance who) value -
        min (s.reserved who) (value - min (s.free_balance who) value) := by
    by_cases hrem : value - min (s.free_balance who) value = 0
    · have hfs : min (s.free_balance who) value = value := by omega
      simp [slash, hrem, hfs]
    · simp [slash, hrem, hres1]
  have G3 : (slash s who value).1.free_balance who =
      if s.free_balance who - min (s.free_balance who) value < s.existential_deposit
      then 0 else s.free_balance who - min (s.free_balance who) value := by
    by_cases hrem : value - min (s.free_balance who) value = 0
    · simp [slash, hrem, sfb_free_balance]
    · simp only [slash, if_pos hrem, hres1]
      rw [State.free_balance, srb_free, ← State.free_balance]
      simp [sfb_free_balance]
  have G4 : (slash s who value).1.reserved who =
      if value - min (s.free_balance who) value ≠ 0 then
        (if s.reserved who - min (s.reserved who) (value - min (s.free_balance who) value) <
            s.existential_deposit then 0
         else s.reserved who -
           min (s.reserved who) (value - min (s.free_balance who) value))
      else s.reserved who := by
    by_cases hrem : value - min (s.free_balance who) value = 0
    · simp [slash, hrem, hres1]
    · simp only [slash, if_pos hrem, hres1, if_neg (not_not_intro hrem)]
      rw [srb_reserved]
      simp [sfb_ed, hrem]
  refine ⟨G1, G2, G3, G4, ?_⟩
  intro h1 h2 h3 h4
  subst h3
  have hm50 : (50:Nat) ⊓ 100 = 50 := by omega
  have hm30 : (30:Nat) ⊓ 50 = 30 := by omega
  have hrem : ¬ ((100:Nat) - min (s.free_balance who) 100 = 0) := by omega
  refine ⟨by rw [G1]; omega, by rw [G2]; omega, ?_, ?_, ?_⟩
  · rw [G3, h1]
    simp [hm50, ite_self]
  · rw [G4, h1, h2]
    simp [hm50, hm30, ite_self]
  · simp only [slash, if_pos hrem]
    rw [srb_events]
    have hfb0 : (set_free_balance s who
        (s.free_balance who - min (s.free_balance who) 100)).1.free_balance who = 0 := by
      rw [sfb_free_balance, if_pos rfl, h1, hm50]
      simp
    rw [hfb0, hres1]
    have hcond : s.reserved who -
        min (s.reserved who) (100 - min (s.free_balance who) 100) <
        (set_free_balance s who
          (s.free_balance who - min (s.free_balance who) 100)).1.existential_deposit := by
      rw [sfb_ed]
      omega
    rw [if_pos ⟨hcond, rfl⟩]
    simp

/-- Witness for C5: the spec's slash scenario on `wsSlash`. -/
theorem slash_spec_witness :
    (slash wsSlash 0 100).2.1 = 80 ∧ (slash wsSlash 0 100).2.2 = 20 ∧
    (slash wsSlash 0 100).1.free_balance 0 = 0 ∧
    (slash wsSlash 0 100).1.reserved 0 = 0 ∧
    Event.reapedAccount 0 ∈ (slash wsSlash 0 100).1.events :=
  (slash_spec wsSlash 0 100).2.2.2.2 (by decide) (by decide) rfl (by decide)

/-- Counterexample to C5 as stated: with `ED = 25` and 50 free,
`slash(0, 40)` reports removing 40 but the free balance drops from 50 to
0, not to 10 — the sub-existential remainder is reaped as dust, so the
free balance does not merely lose `min(free, value)`. -/
theorem slash_dust_cex :
    (slash wsSlashDust 0 40).2.1 = 40 ∧ (slash wsSlashDust 0 40).2.2 = 0 ∧
    (slash wsSlashDust 0 40).1.free_balance 0 = 0 ∧
    wsSlashDust.free_balance 0 - min (wsSlashDust.free_balance 0) 40 = 10 := by
  refine ⟨by decide, by decide, by decide, by decide⟩

/-- The conditional account-creation notification leaves every storage
field untouched (it only appends an event). -/
theorem ite_new_account_free (c : Prop) [Decidable c] (s : State) (w b : Nat) :
    (if c then new_account s w b else s).free = s.free := by
  split <;> rfl

theorem ite_new_account_ed (c : Prop) [Decidable c] (s : State) (w b : Nat) :
    (if c then new_account s w b else s).existential_deposit = s.existential_deposit := by
  split <;> rfl

theorem ite_new_account_reserved (c : Prop) [Decidable c] (s : State) (w b : Nat) :
    (if c then new_account s w b else s).reserved = s.reserved := by
  split <;> rfl

theorem ite_new_account_ti (c : Prop) [Decidable c] (s : State) (w b : Nat) :
    (if c then new_account s w b else s).total_issuance = s.total_issuance := by
  split <;> rfl

-- ===== claim C3 =====

/-- C3: every one of `transfer`, `withdraw`, `reserve` and
`repatriate_reserved` is atomic on failure: whenever it returns an error,
the returned state is exactly the input state — balances, locks, issuance
and events all unchanged — because all validation runs before any
mutation. -/
theorem atomic_on_failure :
    (∀ (s : State) (f t v : Nat) (e : String),
      (transfer s f t v).2 = .error e → (transfer s f t v).1 = s) ∧
    (∀ (s : State) (w v : Nat) (r : WithdrawReason) (lv : ExistenceRequirement)
      (e : String),
      (withdraw s w v r lv).2 = .error e → (withdraw s w v r lv).1 = s) ∧
    (∀ (s : State) (w v : Nat) (e : String),
      (reserve s w v).2 = .error e → (reserve s w v).1 = s) ∧
    (∀ (s : State) (a b v : Nat) (e : String),
      (repatriate_reserved s a b v).2 = .error e →
        (repatriate_reserved s a b v).1 = s) := by
  refine ⟨?_, ?_, ?_, ?_⟩
  · intro s f t v e
    simp only [transfer]
    repeat' split
    all_goals intro h
    all_goals first | rfl | cases h
  · intro s w v r lv e
    simp only [withdraw]
    repeat' split
    all_goals intro h
    all_goals first | rfl | cases h
  · intro s w v e
    simp only [reserve]
    repeat' split
    all_goals intro h
    all_goals first | rfl | cases h
  · intro s a b v e
    simp only [repatriate_reserved]
    repeat' split
    all_goals intro h
    all_goals first | rfl | cases h

/-- Witness for C3: a failing transfer out of an empty account leaves the
state untouched. -/
theorem atomic_on_failure_witness :
    (transfer wsEmpty 0 1 5).1 = wsEmpty :=
  atomic_on_failure.1 wsEmpty 0 1 5 "balance too low to send value" rfl

-- ===== claim C2 =====

/-- C2 (amended): for `transfer(A, B, value)` with `A ≠ B`: the fee is the
creation fee when B's free balance is zero and the transfer fee
otherwise; the call fails with the overflow error when `value + fee`
exceeds `u128::MAX`, with the insufficient-funds error when
`A.free < value + fee`, and with the below-existential-deposit error when
B's free balance is zero and `value < ED` — in each case returning the
state unchanged.  When all validation passes — including, as the
counterexample forces, that the sender's resulting balance stays at or
above the existential deposit, and that the receiver's resulting balance
does too (automatic for well-formed receivers) — the transfer succeeds,
`A.free` decreases by `value + fee`, `B.free` increases by `value` and a
Transfer event `(A, B, value, fee)` is emitted. -/
theorem transfer_spec (s : State) (A B value : Nat) (hAB : A ≠ B) :
    (Bmax < value + (if s.free_balance B = 0 then s.creation_fee else s.transfer_fee) →
      transfer s A B value = (s, .error "got overflow after adding a fee to value")) ∧
    (value + (if s.free_balance B = 0 then s.creation_fee else s.transfer_fee) ≤ Bmax →
      s.free_balance A < value + (if s.free_balance B = 0 then s.creation_fee else s.transfer_fee) →
      transfer s A B value = (s, .error "balance too low to send value")) ∧
    (value + s.creation_fee ≤ Bmax →
      value + s.creation_fee ≤ s.free_balance A →
      s.free_balance B = 0 → value < s.existential_deposit →
      transfer s A B value = (s, .error "value too low to create account")) ∧
    (value + (if s.free_balance B = 0 then s.creation_fee else s.transfer_fee) ≤ Bmax →
      value + (if s.free_balance B = 0 then s.creation_fee else s.transfer_fee) ≤ s.free_balance A →
      (s.free_balance B = 0 → s.existential_deposit ≤ value) →
      ensure_can_withdraw s A value .transfer
        (s.free_balance A - (value + (if s.free_balance B = 0 then s.creation_fee else s.transfer_fee))) = .ok () →
      s.free_balance B + value ≤ Bmax →
      s.existential_deposit ≤ s.free_balance A - (value + (if s.free_balance B = 0 then s.creation_fee else s.transfer_fee)) →
      s.existential_deposit ≤ s.free_balance B + value →
      (transfer s A B value).2 = .ok () ∧
      (transfer s A B value).1.free_balance A =
        s.free_balance A - (value + (if s.free_balance B = 0 then s.creation_fee else s.transfer_fee)) ∧
      (transfer s A B value).1.free_balance B = s.free_balance B + value ∧
      Event.transfer A B value (if s.free_balance B = 0 then s.creation_fee else s.transfer_fee) ∈ (transfer s A B value).1.events) := by
  refine ⟨?_, ?_, ?_, ?_⟩
  · intro hov
    have hca : checkedAdd value (if s.free_balance B = 0 then s.creation_fee else s.transfer_fee) = none := by
      simp [checkedAdd]
      omega
    simp [transfer, hca]
  · intro h1 h2
    have hca : checkedAdd value (if s.free_balance B = 0 then s.creation_fee else s.transfer_fee) = some (value + (if s.free_balance B = 0 then s.creation_fee else s.transfer_fee)) := by
      simp [checkedAdd, h1]
    have hcs : checkedSub (s.free_balance A) (value + (if s.free_balance B = 0 then s.creation_fee else s.transfer_fee)) = none := by
      simp [checkedSub]
      omega
    simp [transfer, hca, hcs]
  · intro h1 h2 h3 h4
    have hca : checkedAdd value s.creation_fee = some (value + s.creation_fee) := by
      simp [checkedAdd, h1]
    have hcs : checkedSub (s.free_balance A) (value + s.creation_fee) =
        some (s.free_balance A - (value + s.creation_fee)) := by
      simp [checkedSub, h2]
    simp [transfer, h3, hca, hcs, h4]
  · intro h1 h2 h3imp hE h5 h6 h7
    have hca : checkedAdd value (if s.free_balance B = 0 then s.creation_fee else s.transfer_fee) = some (value + (if s.free_balance B = 0 then s.creation_fee else s.transfer_fee)) := by
      simp [checkedAdd, h1]
    have hcs : checkedSub (s.free_balance A) (value + (if s.free_balance B = 0 then s.creation_fee else s.transfer_fee)) =
        some (s.free_balance A - (value + (if s.free_balance B = 0 then s.creation_fee else s.transfer_fee))) := by
      simp [checkedSub, h2]
    have hcneg : ¬ (s.free_balance B = 0 ∧ value < s.existential_deposit) := by
      rintro ⟨hz, hlt⟩
      exact absurd (h3imp hz) (by omega)
    have hca2 : checkedAdd (s.free_balance B) value =
        some (s.free_balance B + value) := by
      simp [checkedAdd, h5]
    have hnfb : ¬ (s.free_balance A - (value + (if s.free_balance B = 0 then s.creation_fee else s.transfer_fee)) < s.existential_deposit) := by
      omega
    have hnto : ¬ (s.free_balance B + value < s.existential_deposit) := by
      omega
    have hBA : B ≠ A := Ne.symm hAB
    simp only [transfer, hca, hcs, if_neg hcneg, hE, hca2, if_pos hAB]
    refine ⟨trivial, ?_, ?_, ?_⟩
    · rw [State.free_balance, sfb_free, ite_new_account_free, ite_new_account_ed,
        sfb_ed, sfb_free]
      rw [Function.update_apply, if_neg (Ne.symm hBA), Function.update_apply,
        if_pos rfl, if_neg hnfb]
      rfl
    · rw [State.free_balance, sfb_free, ite_new_account_free, ite_new_account_ed,
        sfb_ed]
      rw [Function.update_apply, if_pos rfl, if_neg hnto]
      rfl
    · simp [List.mem_append]

/-- Witness for C2: the spec's fee scenario on `wsFees`:
`transfer(A, B, 100)` succeeds with `A.free = 895`, `B.free = 100` and a
Transfer event `(A, B, 100, 5)`. -/
theorem transfer_spec_witness :
    (transfer wsFees 0 1 100).2 = .ok () ∧
    (transfer wsFees 0 1 100).1.free_balance 0 = 895 ∧
    (transfer wsFees 0 1 100).1.free_balance 1 = 100 ∧
    Event.transfer 0 1 100 5 ∈ (transfer wsFees 0 1 100).1.events := by
  have h := (transfer_spec wsFees 0 1 100 (by decide)).2.2.2
    (by decide) (by decide) (by decide) rfl (by decide) (by decide) (by decide)
  refine ⟨h.1, h.2.1.trans (by decide), h.2.2.1.trans (by decide), ?_⟩
  have h4 := h.2.2.2
  simpa using h4

/-- Counterexample to C2 as stated: on `wsDust` (A.free 100, B.free 50,
transfer fee 1, ED 10), `transfer(A, B, 90)` succeeds but A's free
balance becomes 0, not `100 - 91 = 9` — the claim's "from.free decreases
by value + fee" fails when the sender's remainder is reaped as dust. -/
theorem transfer_dust_cex :
    (transfer wsDust 0 1 90).2 = .ok () ∧
    (transfer wsDust 0 1 90).1.free_balance 0 = 0 ∧
    wsDust.free_balance 0 - (90 + 1) = 9 := by
  refine ⟨rfl, by decide, by decide⟩

-- ===== claim C6 =====

/-- C6 (amended): `reserve(a, v)` followed by `unreserve(a, v)` restores
the original `(free, reserved)` split and leaves `total_issuance`
unchanged, provided `v ≤ free`, the reserve's withdrawal guard passes,
and no quantity involved falls strictly between zero and the existential
deposit (each of `free`, `reserved`, `free − v`, `reserved + v` is zero
or at least the deposit) — otherwise dust reaping burns part of the
balance, see the counterexample. -/
theorem reserve_unreserve_roundtrip (s : State) (a v : Nat)
    (hv : v ≤ s.free_balance a)
    (hguard : ensure_can_withdraw s a v .reserve (s.free_balance a - v) = .ok ())
    (h1 : s.free_balance a - v = 0 ∨ s.existential_deposit ≤ s.free_balance a - v)
    (h2 : s.reserved a + v = 0 ∨ s.existential_deposit ≤ s.reserved a + v)
    (h3 : s.free_balance a = 0 ∨ s.existential_deposit ≤ s.free_balance a)
    (h4 : s.reserved a = 0 ∨ s.existential_deposit ≤ s.reserved a) :
    (reserve s a v).2 = .ok () ∧
    (unreserve (reserve s a v).1 a v).1.free_balance a = s.free_balance a ∧
    (unreserve (reserve s a v).1 a v).1.reserved a = s.reserved a ∧
    (unreserve (reserve s a v).1 a v).1.total_issuance = s.total_issuance := by
  have hres : reserve s a v =
      ((set_free_balance (set_reserved_balance s a (s.reserved a + v)).1 a
        (s.free_balance a - v)).1, .ok ()) := by
    simp only [reserve, if_neg (show ¬ s.free_balance a < v by omega), hguard]
  have e1 : (set_reserved_balance s a (s.reserved a + v)).1.reserved a =
      s.reserved a + v := by
    rw [srb_reserved, Function.update_same]
    rcases h2 with h | h
    · simp [h]
    · rw [if_neg (by omega)]
  have e2 : (set_reserved_balance s a (s.reserved a + v)).1.total_issuance =
      s.total_issuance := by
    rw [srb_ti]
    rcases h2 with h | h
    · simp [h]
    · rw [if_neg (by omega)]
      omega
  have fR : (set_free_balance (set_reserved_balance s a (s.reserved a + v)).1 a
      (s.free_balance a - v)).1.free_balance a = s.free_balance a - v := by
    rw [sfb_free_balance, if_pos rfl, srb_ed]
    rcases h1 with h | h
    · simp [h]
    · rw [if_neg (by omega)]
  have rR : (set_free_balance (set_reserved_balance s a (s.reserved a + v)).1 a
      (s.free_balance a - v)).1.reserved a = s.reserved a + v := by
    rw [sfb_reserved, e1]
  have tiR : (set_free_balance (set_reserved_balance s a (s.reserved a + v)).1 a
      (s.free_balance a - v)).1.total_issuance = s.total_issuance := by
    rw [sfb_ti, srb_ed, e2]
    rcases h1 with h | h
    · simp [h]
    · rw [if_neg (by omega)]
      omega
  have edR : (set_free_balance (set_reserved_balance s a (s.reserved a + v)).1 a
      (s.free_balance a - v)).1.existential_deposit = s.existential_deposit := by
    rw [sfb_ed, srb_ed]
  refine ⟨by rw [hres], ?_, ?_, ?_⟩
  all_goals rw [hres]
  all_goals simp only [unreserve, rR, fR]
  all_goals rw [show min (s.reserved a + v) v = v by omega,
    show s.free_balance a - v + v = s.free_balance a by omega]
  · rw [State.free_balance, srb_free, sfb_free, edR, Function.update_same]
    rcases h3 with h | h
    · simp only [h]
      split <;> rfl
    · rw [if_neg (by omega)]
      rfl
  · rw [srb_reserved, Function.update_same, sfb_ed, edR,
      show s.reserved a + v - v = s.reserved a by omega]
    rcases h4 with h | h
    · simp [h]
    · rw [if_neg (by omega)]
  · rw [show s.reserved a + v - v = s.reserved a by omega]
    simp only [srb_ti, sfb_ti, sfb_ed, srb_ed]
    have d1 : (if s.reserved a + v < s.existential_deposit
        then s.reserved a + v else 0) = 0 := by
      rcases h2 with h | h
      · simp [h]
      · rw [if_neg (by omega)]
    have d2 : (if s.free_balance a - v < s.existential_deposit
        then s.free_balance a - v else 0) = 0 := by
      rcases h1 with h | h
      · simp [h]
      · rw [if_neg (by omega)]
    have d3 : (if s.free_balance a < s.existential_deposit
        then s.free_balance a else 0) = 0 := by
      rcases h3 with h | h
      · simp [h]
      · rw [if_neg (by omega)]
    have d4 : (if s.reserved a < s.existential_deposit
        then s.reserved a else 0) = 0 := by
      rcases h4 with h | h
      · simp [h]
      · rw [if_neg (by omega)]
    rw [d1, d2, d3, d4]
    omega

/-- Witness for C6: reserving then unreserving 20 of A's 1000 restores
the split and the issuance. -/
theorem reserve_unreserve_roundtrip_witness :
    (reserve wsFees 0 20).2 = .ok () ∧
    (unreserve (reserve wsFees 0 20).1 0 20).1.free_balance 0 = wsFees.free_balance 0 ∧
    (unreserve (reserve wsFees 0 20).1 0 20).1.reserved 0 = wsFees.reserved 0 ∧
    (unreserve (reserve wsFees 0 20).1 0 20).1.total_issuance = wsFees.total_issuance :=
  reserve_unreserve_roundtrip wsFees 0 20 (by decide) rfl (by decide) (by decide)
    (by decide) (by decide)

/-- Counterexample to C6 as stated: reserving 5 (below the existential
deposit of 10) immediately reaps the reserved side as dust, so
`reserve(0, 5); unreserve(0, 5)` leaves A at 995 instead of restoring
1000, and the issuance drops by 5. -/
theorem reserve_dust_cex :
    (5:Nat) ≤ wsFees.free_balance 0 ∧
    (reserve wsFees 0 5).2 = .ok () ∧
    (unreserve (reserve wsFees 0 5).1 0 5).1.free_balance 0 = 995 ∧
    wsFees.free_balance 0 = 1000 ∧
    (unreserve (reserve wsFees 0 5).1 0 5).1.total_issuance = 995 ∧
    wsFees.total_issuance = 1000 := by
  refine ⟨by decide, rfl, by decide, by decide, by decide, by decide⟩

/-- Witness for C9's amended statement: a self-transfer leaves the state
untouched. -/
theorem self_transfer_noop_witness :
    (transfer wsFees 0 0 7).1 = wsFees :=
  (self_transfer_noop wsFees 0 7).1

-- ===== conservation helper lemmas =====

/-- The sum `sumBal` depends only on the balance maps. -/
theorem sumBal_congr (s s2 : State) (S : Finset Nat)
    (hf : s2.free = s.free) (hr : s2.reserved = s.reserved) :
    sumBal s2 S = sumBal s S := by
  unfold sumBal State.free_balance
  rw [hf, hr]

/-- Value of `sumBal` after `set_free_balance` on a member account. -/
theorem sumBal_sfb (s : State) (S : Finset Nat) (w b : Nat) (hmem : w ∈ S) :
    sumBal (set_free_balance s w b).1 S + s.free_balance w =
      sumBal s S + (if b < s.existential_deposit then 0 else b) := by
  have h := sumBal_update_free s (set_free_balance s w b).1 S w
      (if b < s.existential_deposit then none else some b) (sfb_free s w b)
      (sfb_reserved s w b) hmem
  refine h.trans ?_
  congr 1
  split <;> rfl

/-- Value of `sumBal` after `set_reserved_balance` on a member account. -/
theorem sumBal_srb (s : State) (S : Finset Nat) (w b : Nat) (hmem : w ∈ S) :
    sumBal (set_reserved_balance s w b).1 S + s.reserved w =
      sumBal s S + (if b < s.existential_deposit then 0 else b) := by
  exact sumBal_update_reserved s (set_reserved_balance s w b).1 S w
      (if b < s.existential_deposit then 0 else b) (srb_reserved s w b)
      (srb_free s w b) hmem

/-- The value `free_balance` is preserved by state transformations preserving the
free map. -/
theorem free_balance_congr (s s2 : State) (w : Nat) (hf : s2.free = s.free) :
    s2.free_balance w = s.free_balance w := by
  unfold State.free_balance
  rw [hf]

/-- Operation `reserve` preserves the conservation invariant. -/
theorem reserve_conserves (s : State) (S : Finset Nat) (w v : Nat)
    (hC : Conserves s S) (hw : w ∈ S) : Conserves (reserve s w v).1 S := by
  obtain ⟨hti, hsupp⟩ := hC
  by_cases hlt : s.free_balance w < v
  · simp only [reserve, if_pos hlt]
    exact ⟨hti, hsupp⟩
  · cases hE : ensure_can_withdraw s w v .reserve (s.free_balance w - v) with
    | error e =>
      simp only [reserve, if_neg hlt, hE]
      exact ⟨hti, hsupp⟩
    | ok u =>
      cases u
      simp only [reserve, if_neg hlt, hE]
      have hfb1 : (set_reserved_balance s w (s.reserved w + v)).1.free_balance w =
          s.free_balance w :=
        free_balance_congr _ _ _ (srb_free s w _)
      have hsum1 := sumBal_srb s S w (s.reserved w + v) hw
      have hsum2 := sumBal_sfb (set_reserved_balance s w (s.reserved w + v)).1 S w
        (s.free_balance w - v) hw
      rw [hfb1, srb_ed] at hsum2
      have hbound := single_le_sumBal s S w hw
      constructor
      · rw [sfb_ti, srb_ti, srb_ed]
        have i1 : (if s.reserved w + v < s.existential_deposit then 0
              else s.reserved w + v) +
            (if s.reserved w + v < s.existential_deposit then s.reserved w + v
              else 0) = s.reserved w + v := by
          split <;> simp
        have i2 : (if s.free_balance w - v < s.existential_deposit then 0
              else s.free_balance w - v) +
            (if s.free_balance w - v < s.existential_deposit
              then s.free_balance w - v else 0) = s.free_balance w - v := by
          split <;> simp
        omega
      · intro x hx
        have hxw : ¬ (x = w) := fun h => hx (h ▸ hw)
        constructor
        · rw [State.free_balance, sfb_free, Function.update_apply, if_neg hxw, srb_free]
          exact (hsupp x hx).1
        · rw [sfb_reserved, srb_reserved, Function.update_apply, if_neg hxw]
          exact (hsupp x hx).2

/-- Operation `unreserve` preserves the conservation invariant. -/
theorem unreserve_conserves (s : State) (S : Finset Nat) (w v : Nat)
    (hC : Conserves s S) (hw : w ∈ S) : Conserves (unreserve s w v).1 S := by
  obtain ⟨hti, hsupp⟩ := hC
  simp only [unreserve]
  have hsum1 := sumBal_sfb s S w (s.free_balance w + min (s.reserved w) v) hw
  have hres1 : (set_free_balance s w
      (s.free_balance w + min (s.reserved w) v)).1.reserved w = s.reserved w := by
    rw [sfb_reserved]
  have hsum2 := sumBal_srb
    (set_free_balance s w (s.free_balance w + min (s.reserved w) v)).1 S w
    (s.reserved w - min (s.reserved w) v) hw
  rw [hres1, sfb_ed] at hsum2
  have hbound := single_le_sumBal s S w hw
  constructor
  · rw [srb_ti, sfb_ti, sfb_ed]
    have i1 : (if s.free_balance w + min (s.reserved w) v < s.existential_deposit
          then 0 else s.free_balance w + min (s.reserved w) v) +
        (if s.free_balance w + min (s.reserved w) v < s.existential_deposit
          then s.free_balance w + min (s.reserved w) v else 0) =
        s.free_balance w + min (s.reserved w) v := by
      split <;> simp
    have i2 : (if s.reserved w - min (s.reserved w) v < s.existential_deposit
          then 0 else s.reserved w - min (s.reserved w) v) +
        (if s.reserved w - min (s.reserved w) v < s.existential_deposit
          then s.reserved w - min (s.reserved w) v else 0) =
        s.reserved w - min (s.reserved w) v := by
      split <;> simp
    omega
  · intro x hx
    have hxw : ¬ (x = w) := fun h => hx (h ▸ hw)
    constructor
    · rw [State.free_balance, srb_free, sfb_free, Function.update_apply, if_neg hxw]
      exact (hsupp x hx).1
    · rw [srb_reserved, Function.update_apply, if_neg hxw, sfb_reserved]
      exact (hsupp x hx).2

/-- Package the conservation invariant for a state whose balance maps
agree with a reference state. -/
theorem conserves_of_fields (s2 b : State) (S : Finset Nat)
    (hf : s2.free = b.free) (hr : s2.reserved = b.reserved)
    (hti : s2.total_issuance = sumBal b S)
    (hsupp : ∀ a, a ∉ S → b.free_balance a = 0 ∧ b.reserved a = 0) :
    Conserves s2 S := by
  constructor
  · exact hti.trans (sumBal_congr b s2 S hf hr).symm
  · intro x hx
    rw [free_balance_congr b s2 x hf, show s2.reserved x = b.reserved x from by rw [hr]]
    exact hsupp x hx

/-- Operation `slash` followed by the drop of its returned `NegativeImbalance`
preserves the conservation invariant. -/
theorem slash_drop_conserves (s : State) (S : Finset Nat) (w v : Nat)
    (hC : Conserves s S) (hw : w ∈ S) :
    Conserves { (slash s w v).1 with
      total_issuance := (slash s w v).1.total_issuance - (slash s w v).2.1 } S := by
  obtain ⟨hti, hsupp⟩ := hC
  have hbound := single_le_sumBal s S w hw
  have hsum1 := sumBal_sfb s S w
    (s.free_balance w - min (s.free_balance w) v) hw
  have hsuppX : ∀ a, a ∉ S →
      (set_free_balance s w (s.free_balance w - min (s.free_balance w) v)).1.free_balance a = 0 ∧
      (set_free_balance s w (s.free_balance w - min (s.free_balance w) v)).1.reserved a = 0 := by
    intro x hx
    have hxw : ¬ (x = w) := fun h => hx (h ▸ hw)
    constructor
    · rw [State.free_balance, sfb_free, Function.update_apply, if_neg hxw]
      exact (hsupp x hx).1
    · rw [sfb_reserved]
      exact (hsupp x hx).2
  have i1 : (if s.free_balance w - min (s.free_balance w) v < s.existential_deposit
        then 0 else s.free_balance w - min (s.free_balance w) v) +
      (if s.free_balance w - min (s.free_balance w) v < s.existential_deposit
        then s.free_balance w - min (s.free_balance w) v else 0) =
      s.free_balance w - min (s.free_balance w) v := by
    split <;> simp
  by_cases hrem : v - min (s.free_balance w) v = 0
  · simp only [slash, if_neg (not_not_intro hrem)]
    refine conserves_of_fields _
      (set_free_balance s w (s.free_balance w - min (s.free_balance w) v)).1 S
      rfl rfl ?_ hsuppX
    show (set_free_balance s w _).1.total_issuance - v = _
    rw [sfb_ti]
    omega
  · simp only [slash, if_pos hrem]
    have hres1 : (set_free_balance s w
        (s.free_balance w - min (s.free_balance w) v)).1.reserved w =
        s.reserved w := by rw [sfb_reserved]
    rw [hres1]
    have hsum2 := sumBal_srb (set_free_balance s w
        (s.free_balance w - min (s.free_balance w) v)).1 S w
      (s.reserved w - min (s.reserved w) (v - min (s.free_balance w) v)) hw
    rw [hres1, sfb_ed] at hsum2
    have i2 : (if s.reserved w - min (s.reserved w) (v - min (s.free_balance w) v) <
            s.existential_deposit
          then 0 else s.reserved w - min (s.reserved w) (v - min (s.free_balance w) v)) +
        (if s.reserved w - min (s.reserved w) (v - min (s.free_balance w) v) <
            s.existential_deposit
          then s.reserved w - min (s.reserved w) (v - min (s.free_balance w) v) else 0) =
        s.reserved w - min (s.reserved w) (v - min (s.free_balance w) v) := by
      split <;> simp
    refine conserves_of_fields _
      (set_reserved_balance
        (set_free_balance s w (s.free_balance w - min (s.free_balance w) v)).1 w
        (s.reserved w - min (s.reserved w) (v - min (s.free_balance w) v))).1 S
      rfl rfl ?_ ?_
    · show (set_reserved_balance _ w _).1.total_issuance -
        (min (s.free_balance w) v + min (s.reserved w) (v - min (s.free_balance w) v)) = _
      rw [srb_ti, sfb_ed, sfb_ti]
      omega
    · intro x hx
      have hxw : ¬ (x = w) := fun h => hx (h ▸ hw)
      constructor
      · rw [State.free_balance, srb_free, sfb_free, Function.update_apply, if_neg hxw]
        exact (hsupp x hx).1
      · rw [srb_reserved, Function.update_apply, if_neg hxw, sfb_reserved]
        exact (hsupp x hx).2

/-- Operation `transfer` preserves the conservation invariant. -/
theorem transfer_conserves (s : State) (S : Finset Nat) (f t v : Nat)
    (hC : Conserves s S) (hf : f ∈ S) (ht : t ∈ S) :
    Conserves (transfer s f t v).1 S := by
  obtain ⟨hti, hsupp⟩ := hC
  by_cases hft : f = t
  · subst hft
    have hid : (transfer s f f v).1 = s := by
      simp only [transfer]
      repeat' split
      all_goals first | rfl | simp_all
    rw [hid]
    exact ⟨hti, hsupp⟩
  by_cases hov : v + (if s.free_balance t = 0 then s.creation_fee else s.transfer_fee) ≤ Bmax
  case neg =>
    have hca : checkedAdd v (if s.free_balance t = 0 then s.creation_fee else s.transfer_fee) = none := by
      simp [checkedAdd]
      omega
    simp only [transfer, hca]
    exact ⟨hti, hsupp⟩
  have hca : checkedAdd v (if s.free_balance t = 0 then s.creation_fee else s.transfer_fee) = some (v + (if s.free_balance t = 0 then s.creation_fee else s.transfer_fee)) := by
    simp [checkedAdd, hov]
  by_cases hsub : v + (if s.free_balance t = 0 then s.creation_fee else s.transfer_fee) ≤ s.free_balance f
  case neg =>
    have hcs : checkedSub (s.free_balance f) (v + (if s.free_balance t = 0 then s.creation_fee else s.transfer_fee)) = none := by
      simp [checkedSub]
      omega
    simp only [transfer, hca, hcs]
    exact ⟨hti, hsupp⟩
  have hcs : checkedSub (s.free_balance f) (v + (if s.free_balance t = 0 then s.creation_fee else s.transfer_fee)) =
      some (s.free_balance f - (v + (if s.free_balance t = 0 then s.creation_fee else s.transfer_fee))) := by
    simp [checkedSub, hsub]
  by_cases hcr : s.free_balance t = 0 ∧ v < s.existential_deposit
  case pos =>
    simp only [transfer, hca, hcs, if_pos hcr]
    exact ⟨hti, hsupp⟩
  cases hE : ensure_can_withdraw s f v .transfer (s.free_balance f - (v + (if s.free_balance t = 0 then s.creation_fee else s.transfer_fee))) with
  | error e =>
    simp only [transfer, hca, hcs, if_neg hcr, hE]
    exact ⟨hti, hsupp⟩
  | ok u =>
    cases u
    by_cases hto : s.free_balance t + v ≤ Bmax
    case neg =>
      have hca2 : checkedAdd (s.free_balance t) v = none := by
        simp [checkedAdd]
        omega
      simp only [transfer, hca, hcs, if_neg hcr, hE, hca2]
      exact ⟨hti, hsupp⟩
    have hca2 : checkedAdd (s.free_balance t) v = some (s.free_balance t + v) := by
      simp [checkedAdd, hto]
    have htf : ¬ (t = f) := fun h => hft h.symm
    simp only [transfer, hca, hcs, if_neg hcr, hE, hca2, if_pos hft]
    have h2free : ((if ((set_free_balance s f (s.free_balance f - (v + (if s.free_balance t = 0 then s.creation_fee else s.transfer_fee)))).1.free t).isNone = true then new_account (set_free_balance s f (s.free_balance f - (v + (if s.free_balance t = 0 then s.creation_fee else s.transfer_fee)))).1 t (s.free_balance t + v) else (set_free_balance s f (s.free_balance f - (v + (if s.free_balance t = 0 then s.creation_fee else s.transfer_fee)))).1)).free = ((set_free_balance s f (s.free_balance f - (v + (if s.free_balance t = 0 then s.creation_fee else s.transfer_fee)))).1).free :=
      ite_new_account_free _ _ t (s.free_balance t + v)
    have h2res : ((if ((set_free_balance s f (s.free_balance f - (v + (if s.free_balance t = 0 then s.creation_fee else s.transfer_fee)))).1.free t).isNone = true then new_account (set_free_balance s f (s.free_balance f - (v + (if s.free_balance t = 0 then s.creation_fee else s.transfer_fee)))).1 t (s.free_balance t + v) else (set_free_balance s f (s.free_balance f - (v + (if s.free_balance t = 0 then s.creation_fee else s.transfer_fee)))).1)).reserved = ((set_free_balance s f (s.free_balance f - (v + (if s.free_balance t = 0 then s.creation_fee else s.transfer_fee)))).1).reserved :=
      ite_new_account_reserved _ _ t (s.free_balance t + v)
    have h2ti : ((if ((set_free_balance s f (s.free_balance f - (v + (if s.free_balance t = 0 then s.creation_fee else s.transfer_fee)))).1.free t).isNone = true then new_account (set_free_balance s f (s.free_balance f - (v + (if s.free_balance t = 0 then s.creation_fee else s.transfer_fee)))).1 t (s.free_balance t + v) else (set_free_balance s f (s.free_balance f - (v + (if s.free_balance t = 0 then s.creation_fee else s.transfer_fee)))).1)).total_issuance = ((set_free_balance s f (s.free_balance f - (v + (if s.free_balance t = 0 then s.creation_fee else s.transfer_fee)))).1).total_issuance :=
      ite_new_account_ti _ _ t (s.free_balance t + v)
    have h2ed : ((if ((set_free_balance s f (s.free_balance f - (v + (if s.free_balance t = 0 then s.creation_fee else s.transfer_fee)))).1.free t).isNone = true then new_account (set_free_balance s f (s.free_balance f - (v + (if s.free_balance t = 0 then s.creation_fee else s.transfer_fee)))).1 t (s.free_balance t + v) else (set_free_balance s f (s.free_balance f - (v + (if s.free_balance t = 0 then s.creation_fee else s.transfer_fee)))).1)).existential_deposit = ((set_free_balance s f (s.free_balance f - (v + (if s.free_balance t = 0 then s.creation_fee else s.transfer_fee)))).1).existential_deposit :=
      ite_new_account_ed _ _ t (s.free_balance t + v)
    have hfbt : ((if ((set_free_balance s f (s.free_balance f - (v + (if s.free_balance t = 0 then s.creation_fee else s.transfer_fee)))).1.free t).isNone = true then new_account (set_free_balance s f (s.free_balance f - (v + (if s.free_balance t = 0 then s.creation_fee else s.transfer_fee)))).1 t (s.free_balance t + v) else (set_free_balance s f (s.free_balance f - (v + (if s.free_balance t = 0 then s.creation_fee else s.transfer_fee)))).1)).free_balance t = s.free_balance t := by
      rw [free_balance_congr (set_free_balance s f (s.free_balance f - (v + (if s.free_balance t = 0 then s.creation_fee else s.transfer_fee)))).1 (if ((set_free_balance s f (s.free_balance f - (v + (if s.free_balance t = 0 then s.creation_fee else s.transfer_fee)))).1.free t).isNone = true then new_account (set_free_balance s f (s.free_balance f - (v + (if s.free_balance t = 0 then s.creation_fee else s.transfer_fee)))).1 t (s.free_balance t + v) else (set_free_balance s f (s.free_balance f - (v + (if s.free_balance t = 0 then s.creation_fee else s.transfer_fee)))).1) t h2free]
      rw [State.free_balance, State.free_balance, sfb_free, Function.update_apply,
        if_neg htf]
      rfl
    have hsum1 := sumBal_sfb s S f (s.free_balance f - (v + (if s.free_balance t = 0 then s.creation_fee else s.transfer_fee))) hf
    have hsum2 := sumBal_sfb (if ((set_free_balance s f (s.free_balance f - (v + (if s.free_balance t = 0 then s.creation_fee else s.transfer_fee)))).1.free t).isNone = true then new_account (set_free_balance s f (s.free_balance f - (v + (if s.free_balance t = 0 then s.creation_fee else s.transfer_fee)))).1 t (s.free_balance t + v) else (set_free_balance s f (s.free_balance f - (v + (if s.free_balance t = 0 then s.creation_fee else s.transfer_fee)))).1) S t (s.free_balance t + v) ht
    have hc2 : sumBal (if ((set_free_balance s f (s.free_balance f - (v + (if s.free_balance t = 0 then s.creation_fee else s.transfer_fee)))).1.free t).isNone = true then new_account (set_free_balance s f (s.free_balance f - (v + (if s.free_balance t = 0 then s.creation_fee else s.transfer_fee)))).1 t (s.free_balance t + v) else (set_free_balance s f (s.free_balance f - (v + (if s.free_balance t = 0 then s.creation_fee else s.transfer_fee)))).1) S = sumBal (set_free_balance s f (s.free_balance f - (v + (if s.free_balance t = 0 then s.creation_fee else s.transfer_fee)))).1 S :=
      sumBal_congr (set_free_balance s f (s.free_balance f - (v + (if s.free_balance t = 0 then s.creation_fee else s.transfer_fee)))).1 (if ((set_free_balance s f (s.free_balance f - (v + (if s.free_balance t = 0 then s.creation_fee else s.transfer_fee)))).1.free t).isNone = true then new_account (set_free_balance s f (s.free_balance f - (v + (if s.free_balance t = 0 then s.creation_fee else s.transfer_fee)))).1 t (s.free_balance t + v) else (set_free_balance s f (s.free_balance f - (v + (if s.free_balance t = 0 then s.creation_fee else s.transfer_fee)))).1) S h2free h2res
    rw [hfbt, hc2, h2ed, sfb_ed] at hsum2
    have hbound := pair_le_sumBal s S f t hft hf ht
    have i1 : (if s.free_balance f - (v + (if s.free_balance t = 0 then s.creation_fee else s.transfer_fee)) < s.existential_deposit
          then 0 else s.free_balance f - (v + (if s.free_balance t = 0 then s.creation_fee else s.transfer_fee))) +
        (if s.free_balance f - (v + (if s.free_balance t = 0 then s.creation_fee else s.transfer_fee)) < s.existential_deposit
          then s.free_balance f - (v + (if s.free_balance t = 0 then s.creation_fee else s.transfer_fee)) else 0) =
        s.free_balance f - (v + (if s.free_balance t = 0 then s.creation_fee else s.transfer_fee)) := by
      by_cases hdd : s.free_balance f - (v + (if s.free_balance t = 0 then s.creation_fee else s.transfer_fee)) < s.existential_deposit <;>
        simp [hdd]
    have i2 : (if s.free_balance t + v < s.existential_deposit
          then 0 else s.free_balance t + v) +
        (if s.free_balance t + v < s.existential_deposit
          then s.free_balance t + v else 0) =
        s.free_balance t + v := by
      by_cases hdd : s.free_balance t + v < s.existential_deposit <;>
        simp [hdd]
    refine conserves_of_fields _ (set_free_balance (if ((set_free_balance s f (s.free_balance f - (v + (if s.free_balance t = 0 then s.creation_fee else s.transfer_fee)))).1.free t).isNone = true then new_account (set_free_balance s f (s.free_balance f - (v + (if s.free_balance t = 0 then s.creation_fee else s.transfer_fee)))).1 t (s.free_balance t + v) else (set_free_balance s f (s.free_balance f - (v + (if s.free_balance t = 0 then s.creation_fee else s.transfer_fee)))).1) t (s.free_balance t + v)).1 S rfl rfl ?_ ?_
    · show (set_free_balance (if ((set_free_balance s f (s.free_balance f - (v + (if s.free_balance t = 0 then s.creation_fee else s.transfer_fee)))).1.free t).isNone = true then new_account (set_free_balance s f (s.free_balance f - (v + (if s.free_balance t = 0 then s.creation_fee else s.transfer_fee)))).1 t (s.free_balance t + v) else (set_free_balance s f (s.free_balance f - (v + (if s.free_balance t = 0 then s.creation_fee else s.transfer_fee)))).1) t (s.free_balance t + v)).1.total_issuance - (if s.free_balance t = 0 then s.creation_fee else s.transfer_fee) = _
      rw [sfb_ti, h2ed, sfb_ed, h2ti, sfb_ti]
      omega
    · intro x hx
      have hxf : ¬ (x = f) := fun h => hx (h ▸ hf)
      have hxt : ¬ (x = t) := fun h => hx (h ▸ ht)
      constructor
      · rw [State.free_balance, sfb_free, Function.update_apply, if_neg hxt]
        rw [show ((if ((set_free_balance s f (s.free_balance f - (v + (if s.free_balance t = 0 then s.creation_fee else s.transfer_fee)))).1.free t).isNone = true then new_account (set_free_balance s f (s.free_balance f - (v + (if s.free_balance t = 0 then s.creation_fee else s.transfer_fee)))).1 t (s.free_balance t + v) else (set_free_balance s f (s.free_balance f - (v + (if s.free_balance t = 0 then s.creation_fee else s.transfer_fee)))).1)).free x = ((set_free_balance s f (s.free_balance f - (v + (if s.free_balance t = 0 then s.creation_fee else s.transfer_fee)))).1).free x from by rw [h2free]]
        rw [sfb_free, Function.update_apply, if_neg hxf]
        exact (hsupp x hx).1
      · rw [sfb_reserved]
        rw [show ((if ((set_free_balance s f (s.free_balance f - (v + (if s.free_balance t = 0 then s.creation_fee else s.transfer_fee)))).1.free t).isNone = true then new_account (set_free_balance s f (s.free_balance f - (v + (if s.free_balance t = 0 then s.creation_fee else s.transfer_fee)))).1 t (s.free_balance t + v) else (set_free_balance s f (s.free_balance f - (v + (if s.free_balance t = 0 then s.creation_fee else s.transfer_fee)))).1)).reserved x = ((set_free_balance s f (s.free_balance f - (v + (if s.free_balance t = 0 then s.creation_fee else s.transfer_fee)))).1).reserved x from by rw [h2res]]
        rw [sfb_reserved]
        exact (hsupp x hx).2

/-- The free-part issuance adjustment of `set_balance`, assuming the
saturating add does not clamp, amounts to adding the positive difference
and subtracting the negative one. -/
theorem shape1_gen (X : State) (w nf : Nat)
    (hsat : X.free_balance w < nf → X.total_issuance + (nf - X.free_balance w) ≤ Bmax) :
    (if X.free_balance w < nf then
      { X with total_issuance := satAdd X.total_issuance (nf - X.free_balance w) }
     else if nf < X.free_balance w then
      { X with total_issuance := X.total_issuance - (X.free_balance w - nf) }
     else X) =
    { X with total_issuance :=
      X.total_issuance + (nf - X.free_balance w) - (X.free_balance w - nf) } := by
  by_cases h1 : X.free_balance w < nf
  · rw [if_pos h1]
    show { X with total_issuance := min _ _ } = _
    rw [min_eq_left (hsat h1)]
    congr 1
    omega
  · rw [if_neg h1]
    by_cases h2 : nf < X.free_balance w
    · rw [if_pos h2]
      congr 1
      omega
    · rw [if_neg h2]
      have hfe : nf = X.free_balance w := by omega
      subst hfe
      simp

/-- The reserved-part issuance adjustment of `set_balance`, under the same
no-clamping proviso. -/
theorem shape2_gen (X : State) (w nr : Nat)
    (hsat : X.reserved w < nr → X.total_issuance + (nr - X.reserved w) ≤ Bmax) :
    (if X.reserved w < nr then
      { X with total_issuance := satAdd X.total_issuance (nr - X.reserved w) }
     else if nr < X.reserved w then
      { X with total_issuance := X.total_issuance - (X.reserved w - nr) }
     else X) =
    { X with total_issuance :=
      X.total_issuance + (nr - X.reserved w) - (X.reserved w - nr) } := by
  by_cases h1 : X.reserved w < nr
  · rw [if_pos h1]
    show { X with total_issuance := min _ _ } = _
    rw [min_eq_left (hsat h1)]
    congr 1
    omega
  · rw [if_neg h1]
    by_cases h2 : nr < X.reserved w
    · rw [if_pos h2]
      congr 1
      omega
    · rw [if_neg h2]
      have hre : nr = X.reserved w := by omega
      subst hre
      simp

/-- Operation `set_balance` preserves the conservation invariant, provided neither
of its two positive issuance adjustments hits the `u128` saturation
clamp. -/
theorem set_balance_conserves (s : State) (S : Finset Nat) (w nf nr : Nat)
    (hC : Conserves s S) (hw : w ∈ S)
    (hsat1 : s.free_balance w < nf →
      s.total_issuance + (nf - s.free_balance w) ≤ Bmax)
    (hsat2 : s.reserved w < nr →
      s.total_issuance + (nf - s.free_balance w) - (s.free_balance w - nf) -
        (if nf < s.existential_deposit then nf else 0) + (nr - s.reserved w) ≤ Bmax) :
    Conserves (set_balance s w nf nr) S := by
  obtain ⟨hti, hsupp⟩ := hC
  have hbound := single_le_sumBal s S w hw
  simp only [set_balance]
  rw [shape1_gen s w nf hsat1]
  have hXres : (set_free_balance { s with total_issuance := s.total_issuance + (nf - s.free_balance w) - (s.free_balance w - nf) } w nf).1.reserved w = s.reserved w := by
    rw [sfb_reserved]
  have hXti : (set_free_balance { s with total_issuance := s.total_issuance + (nf - s.free_balance w) - (s.free_balance w - nf) } w nf).1.total_issuance =
      s.total_issuance + (nf - s.free_balance w) - (s.free_balance w - nf) - (if nf < s.existential_deposit then nf else 0) := by
    rw [sfb_ti]
  have hXed : (set_free_balance { s with total_issuance := s.total_issuance + (nf - s.free_balance w) - (s.free_balance w - nf) } w nf).1.existential_deposit =
      s.existential_deposit := by
    rw [sfb_ed]
  have hsum1 := sumBal_sfb { s with total_issuance := s.total_issuance + (nf - s.free_balance w) - (s.free_balance w - nf) } S w nf hw
  rw [free_balance_congr s { s with total_issuance := s.total_issuance + (nf - s.free_balance w) - (s.free_balance w - nf) } w rfl, sumBal_congr s { s with total_issuance := s.total_issuance + (nf - s.free_balance w) - (s.free_balance w - nf) } S rfl rfl,
    show ({ s with total_issuance := s.total_issuance + (nf - s.free_balance w) - (s.free_balance w - nf) } : State).existential_deposit = s.existential_deposit from rfl] at hsum1
  have hsuppX : ∀ x, x ∉ S →
      (set_free_balance { s with total_issuance := s.total_issuance + (nf - s.free_balance w) - (s.free_balance w - nf) } w nf).1.free_balance x = 0 ∧
      (set_free_balance { s with total_issuance := s.total_issuance + (nf - s.free_balance w) - (s.free_balance w - nf) } w nf).1.reserved x = 0 := by
    intro x hx
    have hxw : ¬ (x = w) := fun h => hx (h ▸ hw)
    constructor
    · rw [State.free_balance, sfb_free, Function.update_apply, if_neg hxw]
      exact (hsupp x hx).1
    · rw [sfb_reserved]
      exact (hsupp x hx).2
  set X := (set_free_balance { s with total_issuance := s.total_issuance + (nf - s.free_balance w) - (s.free_balance w - nf) } w nf).1 with hXeq
  have hs2sat : X.reserved w < nr → X.total_issuance + (nr - X.reserved w) ≤ Bmax := by
    rw [hXres, hXti]
    exact hsat2
  rw [shape2_gen X w nr hs2sat]
  have hsum2 := sumBal_srb { X with total_issuance :=
      X.total_issuance + (nr - X.reserved w) - (X.reserved w - nr) } S w nr hw
  rw [sumBal_congr X { X with total_issuance :=
        X.total_issuance + (nr - X.reserved w) - (X.reserved w - nr) } S rfl rfl,
    show ({ X with total_issuance :=
        X.total_issuance + (nr - X.reserved w) - (X.reserved w - nr) } : State).reserved w =
      X.reserved w from rfl,
    show ({ X with total_issuance :=
        X.total_issuance + (nr - X.reserved w) - (X.reserved w - nr) } : State).existential_deposit =
      s.existential_deposit from hXed] at hsum2
  have i1 : (if nf < s.existential_deposit then 0 else nf) +
      (if nf < s.existential_deposit then nf else 0) = nf := by
    by_cases hdd : nf < s.existential_deposit <;> simp [hdd]
  have i2 : (if nr < s.existential_deposit then 0 else nr) +
      (if nr < s.existential_deposit then nr else 0) = nr := by
    by_cases hdd : nr < s.existential_deposit <;> simp [hdd]
  constructor
  · rw [srb_ti,
      show ({ X with total_issuance :=
        X.total_issuance + (nr - X.reserved w) - (X.reserved w - nr) } : State).existential_deposit =
        s.existential_deposit from hXed,
      show ({ X with total_issuance :=
        X.total_issuance + (nr - X.reserved w) - (X.reserved w - nr) } : State).total_issuance =
        X.total_issuance + (nr - X.reserved w) - (X.reserved w - nr) from rfl]
    omega
  · intro x hx
    have hxw : ¬ (x = w) := fun h => hx (h ▸ hw)
    constructor
    · rw [State.free_balance, srb_free,
        show ({ X with total_issuance :=
          X.total_issuance + (nr - X.reserved w) - (X.reserved w - nr) } : State).free =
          X.free from rfl]
      exact (hsuppX x hx).1
    · rw [srb_reserved, Function.update_apply, if_neg hxw,
        show ({ X with total_issuance :=
          X.total_issuance + (nr - X.reserved w) - (X.reserved w - nr) } : State).reserved =
          X.reserved from rfl]
      exact (hsuppX x hx).2

-- ===== claim C1 =====

/-- C1 (amended): after every completed public operation — transfer,
slash, reserve, unreserve or set_balance, successful or failed — once
every imbalance token the operation created has been dropped, the
conservation invariant `TotalIssuance = Σ (free + reserved)` is
preserved, **provided** the saturating issuance adjustments of
`set_balance` do not hit the `u128` clamp (`satOk`; the other four
operations only shrink the issuance and need no proviso).  The provision
is forced by the counterexample: at the clamp the issuance silently
diverges from the sum of balances. -/
theorem conservation_preserved (s : State) (S : Finset Nat) (op : Op)
    (hC : Conserves s S) (hT : ∀ x ∈ op.touched, x ∈ S) (hS : satOk s op) :
    Conserves (applyOp s op) S := by
  cases op with
  | transferOp f t v =>
    exact transfer_conserves s S f t v hC
      (hT f (by simp [Op.touched])) (hT t (by simp [Op.touched]))
  | slashOp w v =>
    exact slash_drop_conserves s S w v hC (hT w (by simp [Op.touched]))
  | reserveOp w v =>
    exact reserve_conserves s S w v hC (hT w (by simp [Op.touched]))
  | unreserveOp w v =>
    exact unreserve_conserves s S w v hC (hT w (by simp [Op.touched]))
  | setBalanceOp w nf nr =>
    exact set_balance_conserves s S w nf nr hC (hT w (by simp [Op.touched]))
      hS.1 hS.2

/-- Witness for C1: conservation across the spec's fee transfer. -/
theorem conservation_preserved_witness :
    Conserves (applyOp wsFees (Op.transferOp 0 1 100)) {0, 1} := by
  apply conservation_preserved wsFees {0, 1} (Op.transferOp 0 1 100)
  · constructor
    · decide
    · intro a ha
      have h0 : ¬ (a = 0) := by
        intro h
        subst h
        simp at ha
      constructor
      · simp [wsFees, State.free_balance, h0]
      · rfl
  · intro x hx
    simp only [Op.touched, List.mem_cons, List.mem_singleton] at hx
    rcases hx with rfl | rfl | h
    · decide
    · decide
    · cases h
  · trivial

/-- Counterexample to C1 as stated: starting from a conserving state whose
single account holds `u128::MAX`, the privileged `set_balance` writes a
reserved balance of `u128::MAX` on top; the positive imbalance drop
saturates at the clamp, so afterwards `TotalIssuance` (still `u128::MAX`)
no longer equals the sum of balances (`2 · u128::MAX`). -/
theorem conservation_saturation_cex :
    Conserves wsMax {0} ∧
    ¬ Conserves (applyOp wsMax (Op.setBalanceOp 0 Bmax Bmax)) {0} := by
  constructor
  · constructor
    · decide
    · intro a ha
      have h0 : ¬ (a = 0) := by simpa using ha
      constructor
      · simp [wsMax, State.free_balance, h0]
      · rfl
  · intro hcon
    have hne : (applyOp wsMax (Op.setBalanceOp 0 Bmax Bmax)).total_issuance ≠
        sumBal (applyOp wsMax (Op.setBalanceOp 0 Bmax Bmax)) {0} := by decide
    exact hne hcon.1

end Darwinia
